import Mathlib

/-!
Shallow embedding of the ETL orchestration layer of the
mushroom_identification repository
(src/extract, src/transform, src/load, src/orchestration/etl_pipeline.py).

Record batches (pandas DataFrames) are modelled as row-major tables over a
schema of named, dtype-tagged columns.  Cell values are strings, exact
rationals (standing for the float64 entries actually manipulated here:
quantiles, IQR bounds, medians and missing-ratio thresholds are all rational
expressions of the input values, so the embedding is exact), booleans
(pandas dummy columns), or null (NaN / None).  Stage components
(extractors / transformers / loaders) are modelled by their observable
behaviour: fallible calls return an Except value; an except branch in the
Python source corresponds to the .error case here.
-/

namespace MushroomETL

/-- A cell of a pandas DataFrame: a string, an exact numeric value,
a boolean (dummy/indicator columns), or a missing value (NaN/None). -/
inductive Value where
  | vstr (s : String)
  | vnum (q : ℚ)
  | vbool (b : Bool)
  | vnull
deriving DecidableEq, Repr

/-- Column dtype, as reported by pandas: object (strings), numeric
(int64/float64) or bool (dummy columns produced by get_dummies). -/
inductive DType where
  | dstr
  | dnum
  | dbool
deriving DecidableEq, Repr

/-- A DataFrame: a schema (column name and dtype, in order) and a list of
rows; each row lists its cells in schema order. -/
structure DataFrame where
  cols : List (String × DType)
  rows : List (List Value)
deriving DecidableEq, Repr

namespace DataFrame

/-- pandas DataFrame.empty: true when either axis has length zero. -/
def isEmptyB (df : DataFrame) : Bool :=
  df.rows.isEmpty || df.cols.isEmpty

/-- Index of the first column with the given name (pandas column lookup). -/
def colIdx (df : DataFrame) (name : String) : Option Nat :=
  df.cols.findIdx? (fun c => c.1 = name)

/-- dtype of the first column with the given name. -/
def dtypeOf (df : DataFrame) (name : String) : Option DType :=
  (df.cols.find? (fun c => c.1 = name)).map Prod.snd

/-- Names of the columns, in order. -/
def colNames (df : DataFrame) : List String :=
  df.cols.map Prod.fst

/-- The cell of a row (given in schema order) under the first column with
the given name. -/
def rowCell (df : DataFrame) (name : String) (row : List Value) : Option Value :=
  match df.colIdx name with
  | none => none
  | some i => row.get? i

end DataFrame

/-- pandas isnull on one cell. -/
def isNullV : Value → Bool
  | .vnull => true
  | _ => false

/-! ### Association lists with python-dict update semantics

`results[name] = x` keeps the original insertion position of an existing
key and appends a fresh key at the end. -/

/-- Python dict assignment d[k] = v on an insertion-ordered assoc list. -/
def updateAssoc (l : List (String × α)) (k : String) (v : α) : List (String × α) :=
  match l with
  | [] => [(k, v)]
  | (k', v') :: t => if k' = k then (k, v) :: t else (k', v') :: updateAssoc t k v

/-- Python dict lookup d.get(k) on an insertion-ordered assoc list. -/
def lookupA (l : List (String × α)) (k : String) : Option α :=
  match l with
  | [] => none
  | (k', v) :: t => if k' = k then some v else lookupA t k

/-! ### Duplicate removal (pandas drop_duplicates, keep="first") -/

variable {α : Type _} [DecidableEq α]

/-- pandas drop_duplicates with the default keep="first": retain the first
occurrence of every row, preserving order (later occurrences of the head
are filtered out of the deduplicated tail).  pandas treats NaN cells as
equal for this purpose, matching decidable equality on Value. -/
def dedupFirst : List α → List α
  | [] => []
  | x :: xs => x :: (dedupFirst xs).filter (fun y => decide (y ≠ x))

/-! ### Stage components

A component is modelled by its observable behaviour.  A Python call that may
raise is an Except value: .error stands for a raised exception, caught by the
enclosing orchestrator loop (extraction_orchestrator.py:66-83,
transformation_pipeline.py:47-64, loading_pipeline.py:50-80). -/

/-- An extractor (base_extractor.py): extract() takes no arguments, so its
behaviour is one fixed outcome; validate may itself raise. -/
structure Extractor where
  name : String
  extract : Except String DataFrame
  validate : DataFrame → Except String Bool

/-- An extractor succeeds when extract() returns a table and validate
accepts it (extraction_orchestrator.py:70-76). -/
def extractorSucceeds (e : Extractor) : Bool :=
  match e.extract with
  | .error _ => false
  | .ok df =>
    match e.validate df with
    | .ok true => true
    | _ => false

/-- The table of a successful extractor. -/
def extractorTable (e : Extractor) : Option DataFrame :=
  match e.extract with
  | .error _ => none
  | .ok df =>
    match e.validate df with
    | .ok true => some df
    | _ => none

/-- State of ExtractionOrchestrator after run_all_extractions: the results
dict plus the successful/failed counters. -/
structure ExtractionRun where
  results : List (String × DataFrame)
  succ : Nat
  fail : Nat

/-- Loop body of run_all_extractions (extraction_orchestrator.py:65-83):
an extraction whose validate accepts is recorded under the extractor name
(dict update semantics); a validation failure or a raised exception only
bumps the failure counter and the loop continues. -/
def extStep (acc : ExtractionRun) (e : Extractor) : ExtractionRun :=
  match e.extract with
  | .error _ => { acc with fail := acc.fail + 1 }
  | .ok data =>
    match e.validate data with
    | .ok true =>
      { acc with
        results := updateAssoc acc.results e.name data
        succ := acc.succ + 1 }
    | .ok false => { acc with fail := acc.fail + 1 }
    | .error _ => { acc with fail := acc.fail + 1 }

/-- ExtractionOrchestrator.run_all_extractions
(extraction_orchestrator.py:53-95): self.results is reset to empty, then
every extractor runs in order. -/
def runAllExtractions (es : List Extractor) : ExtractionRun :=
  es.foldl extStep ⟨[], 0, 0⟩

/-- A transformer (base_transformer.py): transform and validate, either of
which may raise. -/
structure Transformer where
  name : String
  transform : DataFrame → Except String DataFrame
  validate : DataFrame → Except String Bool

/-- One iteration of TransformationPipeline.run_transformations
(transformation_pipeline.py:47-64): the transformed output when the
transformer neither raises nor fails validation, none otherwise. -/
def transStep (t : Transformer) (cur : DataFrame) : Option DataFrame :=
  match t.transform cur with
  | .error _ => none
  | .ok out =>
    match t.validate out with
    | .ok true => some out
    | _ => none

/-- Loop body of run_transformations: on success the output is recorded in
the results dict and becomes the data for the next transformer; on failure
the previous data is passed on unchanged. -/
def runTransStep (acc : DataFrame × List (String × DataFrame)) (t : Transformer) :
    DataFrame × List (String × DataFrame) :=
  match transStep t acc.1 with
  | some out => (out, updateAssoc acc.2 t.name out)
  | none => acc

/-- TransformationPipeline.run_transformations
(transformation_pipeline.py:32-67).  current_data starts as data.copy()
(identical in value to data) and the loop threads it through the
transformers; returns the final DataFrame and the results dict. -/
def runTransformations (ts : List Transformer) (data : DataFrame) :
    DataFrame × List (String × DataFrame) :=
  ts.foldl runTransStep (data, [])

/-- Same loop, but collecting the chronological list of successful
outputs instead of the results dict. -/
def traceStep (p : DataFrame × List DataFrame) (t : Transformer) :
    DataFrame × List DataFrame :=
  match transStep t p.1 with
  | some out => (out, p.2 ++ [out])
  | none => p

/-- The chronological list of outputs of the successful transformers in one
run_transformations call. -/
def transSuccessOutputs (ts : List Transformer) (data : DataFrame) : List DataFrame :=
  (ts.foldl traceStep (data, [])).2

/-- A loader (base_loader.py): validate and load, either of which may
raise; load returns a success flag. -/
structure Loader where
  name : String
  validate : DataFrame → Except String Bool
  load : DataFrame → Except String Bool

/-- A loader succeeds on a table when its validate accepts it and its load
returns True, neither raising (loading_pipeline.py:58-74). -/
def loaderOk (l : Loader) (df : DataFrame) : Bool :=
  match l.validate df with
  | .ok true =>
    match l.load df with
    | .ok true => true
    | _ => false
  | _ => false

/-- State of LoadingPipeline after run_loadings: the per-loader results
dict and the success/failure counters. -/
structure LoadingRun where
  results : List (String × Bool)
  succ : Nat
  fail : Nat

/-- Loop body of run_loadings (loading_pipeline.py:49-80): a validation
failure only bumps the failure counter, a load failure or a raised
exception records False for that loader, and the loop always continues. -/
def loadStep (df : DataFrame) (acc : LoadingRun) (l : Loader) : LoadingRun :=
  match l.validate df with
  | .error _ =>
    { acc with results := updateAssoc acc.results l.name false
               fail := acc.fail + 1 }
  | .ok false => { acc with fail := acc.fail + 1 }
  | .ok true =>
    match l.load df with
    | .error _ =>
      { acc with results := updateAssoc acc.results l.name false
                 fail := acc.fail + 1 }
    | .ok false =>
      { acc with results := updateAssoc acc.results l.name false
                 fail := acc.fail + 1 }
    | .ok true =>
      { acc with results := updateAssoc acc.results l.name true
                 succ := acc.succ + 1 }

/-- LoadingPipeline.run_loadings (loading_pipeline.py:33-89): every loader
is run against the same table df.  Returns True iff at least one loading
succeeded. -/
def runLoadings (ls : List Loader) (df : DataFrame) : Bool × LoadingRun :=
  let r := ls.foldl (loadStep df) ⟨[], 0, 0⟩
  (decide (r.succ > 0), r)

/-! ### pd.concat (outer alignment, ignore_index=True)

Used by _run_transformation_stage to combine the extraction results.
Columns appear in first-appearance order; a column missing from a frame is
filled with NaN; a name carried with conflicting dtypes falls back to
object. -/

/-- Add one column of an incoming frame to the accumulated schema. -/
def addCol (acc : List (String × DType)) (c : String × DType) :
    List (String × DType) :=
  if acc.any (fun p => p.1 = c.1) then
    acc.map (fun p => if p.1 = c.1 && !(p.2 = c.2 : Bool) then (p.1, DType.dstr) else p)
  else acc ++ [c]

/-- Re-express a row of df in the combined schema, filling NaN for columns
the frame does not have. -/
def reindexRow (df : DataFrame) (cols : List (String × DType)) (row : List Value) :
    List Value :=
  cols.map (fun c =>
    match df.rowCell c.1 row with
    | some v => v
    | none => Value.vnull)

/-- pd.concat(frames, ignore_index=True). -/
def concatDF (dfs : List DataFrame) : DataFrame :=
  let cols := dfs.foldl (fun acc df => df.cols.foldl addCol acc) []
  { cols := cols
    rows := dfs.foldr (fun df acc => df.rows.map (reindexRow df cols) ++ acc) [] }

/-! ### ETLPipeline (etl_pipeline.py)

Only the success flag of a stage entry matters to the spec; the record
counts and summaries stored alongside it are omitted.  The except branches
of the three _run_*_stage methods (which would record success: False) are
unreachable for type-correct components: every component call is already
wrapped in the orchestrator loops, and the remaining stage code
(pd.concat on a non-empty dict, len, .empty) does not raise.  A stage that
fails via its early-return paths records no entry at all. -/

inductive PStatus where
  | initialized
  | running
  | completed
  | failed
deriving DecidableEq, Repr

/-- One entry of stats["stages"]. -/
structure StageRec where
  success : Bool
deriving DecidableEq, Repr

/-- stats["stages"]: per-stage entries, absent until the stage records
one. -/
structure StagesMap where
  extraction : Option StageRec
  transformation : Option StageRec
  loading : Option StageRec
deriving DecidableEq, Repr

/-- The components configured on an ETLPipeline before run_pipeline. -/
structure PipelineConfig where
  extractors : List Extractor
  transformers : List Transformer
  loaders : List Loader

/-- Observable outcome of run_pipeline: its return value, the final
stats["status"], and stats["stages"]. -/
structure PipeOutcome where
  ok : Bool
  status : PStatus
  stages : StagesMap
deriving DecidableEq, Repr

/-- ETLPipeline._run_extraction_stage (etl_pipeline.py:136-163): runs all
extractions; an empty results dict fails the stage with no stage entry,
otherwise an entry with success: True is stored. -/
def runExtractionStage (es : List Extractor) :
    Bool × Option StageRec × List (String × DataFrame) :=
  let r := runAllExtractions es
  if r.results.isEmpty then (false, none, r.results)
  else (true, some ⟨true⟩, r.results)

/-- ETLPipeline._run_transformation_stage (etl_pipeline.py:165-202):
combines the extraction results with pd.concat, runs the transformation
pipeline, and fails the stage (no entry) when there was no extracted data
or the final transformed frame is empty; otherwise records success: True.
Also returns the transformation results dict for the loading stage. -/
def runTransformationStage (ts : List Transformer)
    (exResults : List (String × DataFrame)) :
    Bool × Option StageRec × DataFrame × List (String × DataFrame) :=
  if exResults.isEmpty then (false, none, ⟨[], []⟩, [])
  else
    let combined := concatDF (exResults.map Prod.snd)
    let p := runTransformations ts combined
    if p.1.isEmptyB then (false, none, p.1, p.2)
    else (true, some ⟨true⟩, p.1, p.2)

/-- ETLPipeline._run_loading_stage (etl_pipeline.py:204-237): reads only
transformation_pipeline.results.get("feature_engineer"); fails (no entry)
when that is missing or empty, or when run_loadings reports no success;
otherwise records success: True. -/
def runLoadingStage (ls : List Loader) (trRes : List (String × DataFrame)) :
    Bool × Option StageRec :=
  match lookupA trRes "feature_engineer" with
  | none => (false, none)
  | some df =>
    if df.isEmptyB then (false, none)
    else if (runLoadings ls df).1 then (true, some ⟨true⟩)
    else (false, none)

/-- ETLPipeline.run_pipeline (etl_pipeline.py:77-134): the three stages in
fixed order, stopping at the first failure with status "failed", else
status "completed" and return True. -/
def runPipeline (cfg : PipelineConfig) : PipeOutcome :=
  let ex := runExtractionStage cfg.extractors
  if ex.1 then
    let tr := runTransformationStage cfg.transformers ex.2.2
    if tr.1 then
      let ld := runLoadingStage cfg.loaders tr.2.2.2
      if ld.1 then ⟨true, .completed, ⟨ex.2.1, tr.2.1, ld.2⟩⟩
      else ⟨false, .failed, ⟨ex.2.1, tr.2.1, ld.2⟩⟩
    else ⟨false, .failed, ⟨ex.2.1, tr.2.1, none⟩⟩
  else ⟨false, .failed, ⟨ex.2.1, none, none⟩⟩

/-! ### DataCleaner (data_cleaner.py)

Columns are addressed by name; all frames built by this repository have
distinct column names, which the embedding assumes.  float64 arithmetic on
the quantities handled here (quantiles, IQR bounds, medians, missing
ratios) is represented exactly by rationals; the z-score comparison
|x - mean| / std < t is encoded by its squared equivalent to avoid the
square root. -/

/-- The cells of the column with the given name, in row order. -/
def colCells (df : DataFrame) (name : String) : List Value :=
  match df.colIdx name with
  | none => []
  | some i => df.rows.map (fun r => r.getD i Value.vnull)

/-- Number of nulls in a column (data[col].isnull().sum()). -/
def countNulls (df : DataFrame) (name : String) : Nat :=
  (colCells df name).countP isNullV

/-- Names of the columns containing at least one null
(data.columns[data.isnull().any()]). -/
def missingColNames (df : DataFrame) : List String :=
  (df.cols.map Prod.fst).filter (fun n => (colCells df n).any isNullV)

/-- data.drop(columns=names). -/
def dropColsDF (df : DataFrame) (names : List String) : DataFrame :=
  { cols := df.cols.filter (fun c => c.1 ∉ names)
    rows := df.rows.map (fun r =>
      ((df.cols.zip r).filter (fun p => p.1.1 ∉ names)).map Prod.snd) }

/-- data.dropna(): drop every row containing a null. -/
def dropnaRows (df : DataFrame) : DataFrame :=
  { cols := df.cols, rows := df.rows.filter (fun r => !(r.any isNullV)) }

/-- The non-null numeric values of a column (pandas numeric ops skip
NaN). -/
def numericCells (df : DataFrame) (name : String) : List ℚ :=
  (colCells df name).filterMap (fun v =>
    match v with
    | .vnum q => some q
    | _ => none)

/-- pandas Series.median() over the non-null values: middle element, or
the mean of the two middle elements; none when there is no value (a NaN
median, so fillna leaves the column untouched). -/
def medianQ (xs : List ℚ) : Option ℚ :=
  let s := xs.insertionSort (· ≤ ·)
  let n := s.length
  if n = 0 then none
  else if n % 2 = 1 then s.get? (n / 2)
  else
    match s.get? (n / 2 - 1), s.get? (n / 2) with
    | some a, some b => some ((a + b) / 2)
    | _, _ => none

/-- pandas Series.quantile(q) with the default linear interpolation over
the non-null values; none when there is no value (a NaN quantile). -/
def quantileQ (q : ℚ) (xs : List ℚ) : Option ℚ :=
  let s := xs.insertionSort (· ≤ ·)
  let n := s.length
  if n = 0 then none
  else
    let pos : ℚ := q * ((n : ℚ) - 1)
    let i : Nat := pos.floor.toNat
    let frac : ℚ := pos - (i : ℚ)
    match s.get? i with
    | none => none
    | some lo =>
      match s.get? (i + 1) with
      | none => some lo
      | some hi => some (lo + frac * (hi - lo))

/-- data[col].mode().iloc[0] for a non-numeric column: the most frequent
non-null value, smallest first on ties (pandas mode returns the modes
sorted); none when the column has no non-null value. -/
def modeStr (xs : List String) : Option String :=
  let most := xs.filter (fun s => ∀ t ∈ xs, xs.count t ≤ xs.count s)
  most.min?

/-- String rendering of a cell, as astype(str) produces it.  Numeric cells
do not occur in the object-dtype columns this is applied to in well-formed
frames; they are rendered via toString only to keep the function total. -/
def stringCell : Value → String
  | .vstr s => s
  | .vnull => "nan"
  | .vbool b => if b then "True" else "False"
  | .vnum q => toString q

/-- Replace the nulls of one column by the fill value
(data_cleaner.py:109-115): the median for int64/float64 columns, the mode
(or "Unknown" when the column is all-null) otherwise. -/
def fillCol (df : DataFrame) (name : String) : DataFrame :=
  match df.colIdx name with
  | none => df
  | some i =>
    let fillV : Value :=
      match df.dtypeOf name with
      | some .dnum =>
        match medianQ (numericCells df name) with
        | some m => Value.vnum m
        | none => Value.vnull
      | _ =>
        let nonNull := (colCells df name).filterMap (fun v =>
          match v with
          | .vnull => none
          | v => some (stringCell v))
        match modeStr nonNull with
        | some m => Value.vstr m
        | none => Value.vstr "Unknown"
    { cols := df.cols
      rows := df.rows.map (fun r =>
        if isNullV (r.getD i Value.vnull) then r.set i fillV else r) }

/-- DataCleaner._handle_missing_values (data_cleaner.py:81-117).  An
unrecognized handle_missing value has no branch and leaves the data
unchanged, as does "impute". -/
inductive HandleMissing where
  | hdrop
  | hfill
  | himpute
deriving DecidableEq, Repr

def handleMissingValues (hm : HandleMissing) (threshold : ℚ) (df : DataFrame) :
    DataFrame :=
  let missing := missingColNames df
  if missing.isEmpty then df
  else
    match hm with
    | .hdrop =>
      let n : ℚ := (df.rows.length : ℚ)
      let toDrop := missing.filter (fun c => (countNulls df c : ℚ) / n > threshold)
      dropnaRows (dropColsDF df toDrop)
    | .hfill => missing.foldl fillCol df
    | .himpute => df

/-- One iteration of DataCleaner._remove_outliers_iqr
(data_cleaner.py:139-148): quantiles of the current data, then a row
filter keeping values inside [Q1 - 1.5 IQR, Q3 + 1.5 IQR].  When a
quantile is NaN (no non-null value) every comparison is False and all rows
are dropped, as are rows whose cell is null. -/
def iqrFilterCol (df : DataFrame) (name : String) : DataFrame :=
  match df.colIdx name with
  | none => df
  | some i =>
    let nums := numericCells df name
    match quantileQ (1/4) nums, quantileQ (3/4) nums with
    | some q1, some q3 =>
      let iqr := q3 - q1
      let lb := q1 - 3/2 * iqr
      let ub := q3 + 3/2 * iqr
      { cols := df.cols
        rows := df.rows.filter (fun r =>
          match r.getD i Value.vnull with
          | .vnum x => decide (lb ≤ x ∧ x ≤ ub)
          | _ => false) }
    | _, _ => { cols := df.cols, rows := [] }

/-- One iteration of DataCleaner._remove_outliers_zscore
(data_cleaner.py:158-162): keep rows with |x - mean| / std < t, where mean
and the ddof=1 std are over the non-null values of the current column.
Encoded by squares: for t > 0 and var > 0, z < t iff (x - mean)^2 < t^2 var;
a zero or undefined std makes every comparison with NaN/inf False, dropping
all rows, as are null cells. -/
def zscoreFilterCol (t : ℚ) (df : DataFrame) (name : String) : DataFrame :=
  match df.colIdx name with
  | none => df
  | some i =>
    let nums := numericCells df name
    let n := nums.length
    if n < 2 then { cols := df.cols, rows := [] }
    else
      let mean : ℚ := nums.sum / (n : ℚ)
      let var : ℚ := (nums.map (fun x => (x - mean) ^ 2)).sum / ((n : ℚ) - 1)
      if var = 0 then { cols := df.cols, rows := [] }
      else
        { cols := df.cols
          rows := df.rows.filter (fun r =>
            match r.getD i Value.vnull with
            | .vnum x => decide (0 < t ∧ (x - mean) ^ 2 < t ^ 2 * var)
            | _ => false) }

/-- DataCleaner._handle_outliers (data_cleaner.py:119-133).  An
unrecognized outlier_method ("isolation_forest" included) has no branch. -/
inductive OutlierMethod where
  | iqr
  | zscore
  | isolationForest
deriving DecidableEq, Repr

def handleOutliers (om : OutlierMethod) (t : ℚ) (df : DataFrame) : DataFrame :=
  let numeric := (df.cols.filter (fun c => c.2 = DType.dnum)).map Prod.fst
  if numeric.isEmpty then df
  else
    match om with
    | .iqr => numeric.foldl iqrFilterCol df
    | .zscore => numeric.foldl (zscoreFilterCol t) df
    | .isolationForest => df

/-- Whitespace runs collapse to one space (re.sub applied after strip):
the boolean tracks whether the previous character was whitespace, so only
the first character of a run emits the space. -/
def collapseAux : Bool → List Char → List Char
  | _, [] => []
  | prevWs, c :: cs =>
    if c.isWhitespace then
      if prevWs then collapseAux true cs else ' ' :: collapseAux true cs
    else c :: collapseAux false cs

def collapseChars (cs : List Char) : List Char :=
  collapseAux false cs

/-- Python str.strip(): drop leading and trailing whitespace. -/
def trimChars (cs : List Char) : List Char :=
  ((cs.dropWhile Char.isWhitespace).reverse.dropWhile Char.isWhitespace).reverse

/-- Lowering via .str.lower() and stripping via .str.strip() followed by the regex replacement of runs of
whitespace by a single space (data_cleaner.py:172-176).  Char.isWhitespace
stands for the whitespace class and Char.toLower for str.lower; on the
ASCII data of this repository they coincide with Python. -/
def stdString (s : String) : String :=
  String.mk (collapseChars (trimChars (s.data.map Char.toLower)))

/-- One cell under _standardize_text: astype(str) turns NaN into the
string "nan"; strings are lowercased, trimmed and whitespace-collapsed.
Numeric/bool cells do not occur in object-dtype columns of well-formed
frames and are left unchanged. -/
def stdValue : Value → Value
  | .vstr s => .vstr (stdString s)
  | .vnull => .vstr (stdString "nan")
  | v => v

/-- Standardize one object column in place. -/
def stdCol (df : DataFrame) (name : String) : DataFrame :=
  match df.colIdx name with
  | none => df
  | some i =>
    { cols := df.cols
      rows := df.rows.map (fun r => r.set i (stdValue (r.getD i Value.vnull))) }

/-- DataCleaner._standardize_text (data_cleaner.py:167-179): every
object-dtype column is standardized. -/
def stdTextDF (df : DataFrame) : DataFrame :=
  ((df.cols.filter (fun c => c.2 = DType.dstr)).map Prod.fst).foldl stdCol df

/-- DataCleaner configuration (data_cleaner.py:19-26). -/
structure CleanerConfig where
  handleMissing : HandleMissing
  missingThreshold : ℚ
  outlierMethod : OutlierMethod
  outlierThreshold : ℚ
  standardizeText : Bool
  removeDuplicates : Bool
deriving DecidableEq, Repr

/-- The default DataCleaner configuration: drop missing values with a 50%
column threshold, IQR outlier removal, z threshold 3.0, standardize text,
remove duplicates. -/
def defaultCleanerConfig : CleanerConfig :=
  ⟨.hdrop, 1/2, .iqr, 3, true, true⟩

/-- DataCleaner.transform (data_cleaner.py:36-79): copy, duplicate
removal, missing-value handling, outlier handling, text standardization. -/
def dataCleanerTransform (cfg : CleanerConfig) (df : DataFrame) : DataFrame :=
  let d1 := if cfg.removeDuplicates then ⟨df.cols, dedupFirst df.rows⟩ else df
  let d2 := handleMissingValues cfg.handleMissing cfg.missingThreshold d1
  let d3 := handleOutliers cfg.outlierMethod cfg.outlierThreshold d2
  if cfg.standardizeText then stdTextDF d3 else d3

/-- DataCleaner.validate (data_cleaner.py:181-212): False on an empty
frame or a frame with no columns, True otherwise (missing values only
warn). -/
def dataCleanerValidate (df : DataFrame) : Bool :=
  if df.isEmptyB then false
  else if df.cols.length = 0 then false
  else true

/-! ### FeatureEngineer._encode_categorical (feature_engineer.py:104-136)

The categorical columns are the object-dtype ones.  The config value
categorical_encoding is one of "onehot", "label", "target" (any other
string would leave encoded_data unbound and crash the Python). -/

inductive CatEncoding where
  | onehot
  | label
  | target
deriving DecidableEq, Repr

/-- Names of the object-dtype (categorical) columns. -/
def catColNames (df : DataFrame) : List String :=
  (df.cols.filter (fun c => c.2 = DType.dstr)).map Prod.fst

/-- The categories pd.get_dummies derives for one column: the distinct
non-null values, sorted; NaN yields no category (dummy_na=False). -/
def dummyCats (df : DataFrame) (c : String) : List String :=
  (dedupFirst ((colCells df c).filterMap (fun v =>
    match v with
    | .vstr s => some s
    | _ => none))).insertionSort (· ≤ ·)

/-- The indicator cells get_dummies produces for one categorical column of
one row: one bool per category, true exactly on the category the cell
holds (a null cell matches no category). -/
def dummyBlock (df : DataFrame) (c : String) (row : List Value) : List Value :=
  (dummyCats df c).map (fun cat =>
    Value.vbool (decide (df.rowCell c row = some (Value.vstr cat))))

/-- pd.get_dummies(data, columns=cats, prefix=cats): non-categorical
columns pass through in order, followed per categorical column by its
indicator columns named col_category. -/
def getDummies (df : DataFrame) : DataFrame :=
  let cats := catColNames df
  { cols :=
      df.cols.filter (fun c => c.2 ≠ DType.dstr) ++
      (cats.map (fun c =>
        (dummyCats df c).map (fun v => (c ++ "_" ++ v, DType.dbool)))).flatten
    rows := df.rows.map (fun r =>
      ((df.cols.zip r).filter (fun p => p.1.2 ≠ DType.dstr)).map Prod.snd ++
      (cats.map (fun c => dummyBlock df c r)).flatten) }

/-- LabelEncoder().fit_transform(column.astype(str)): classes are the
sorted distinct strings (astype(str) renders NaN as "nan"), each cell is
replaced by the index of its class; the column dtype becomes int64. -/
def labelEncodeCol (df : DataFrame) (name : String) : DataFrame :=
  match df.colIdx name with
  | none => df
  | some i =>
    let classes := (dedupFirst ((colCells df name).map stringCell)).insertionSort (· ≤ ·)
    { cols := df.cols.map (fun c => if c.1 = name then (c.1, DType.dnum) else c)
      rows := df.rows.map (fun r =>
        r.set i (Value.vnum ((classes.indexOf (stringCell (r.getD i Value.vnull)) : Nat) : ℚ))) }

/-- column.astype("category").cat.codes: categories are the sorted
distinct non-null values, a cell becomes the index of its category and a
null cell becomes -1; the column dtype becomes integer. -/
def targetEncodeCol (df : DataFrame) (name : String) : DataFrame :=
  match df.colIdx name with
  | none => df
  | some i =>
    let classes := (dedupFirst ((colCells df name).filterMap (fun v =>
      match v with
      | .vnull => none
      | v => some (stringCell v)))).insertionSort (· ≤ ·)
    { cols := df.cols.map (fun c => if c.1 = name then (c.1, DType.dnum) else c)
      rows := df.rows.map (fun r =>
        match r.getD i Value.vnull with
        | .vnull => r.set i (Value.vnum (-1))
        | v => r.set i (Value.vnum ((classes.indexOf (stringCell v) : Nat) : ℚ))) }

/-- FeatureEngineer._encode_categorical: no categorical columns leaves the
data unchanged; otherwise dispatch on the configured encoding. -/
def encodeCategorical (enc : CatEncoding) (df : DataFrame) : DataFrame :=
  let cats := catColNames df
  if cats.isEmpty then df
  else
    match enc with
    | .onehot => getDummies df
    | .label => cats.foldl labelEncodeCol df
    | .target => cats.foldl targetEncodeCol df

/-- FeatureEngineer.validate (feature_engineer.py:217-252): False on an
empty frame or a frame with no columns, True otherwise (inf and NaN only
warn). -/
def featureEngineerValidate (df : DataFrame) : Bool :=
  if df.isEmptyB then false
  else if df.cols.length = 0 then false
  else true

/-! ### Extractor validators (uci_mushroom_extractor.py, file_extractor.py) -/

/-- The required columns hardcoded in UCIMushroomExtractor.validate. -/
def uciRequiredColumns : List String :=
  ["class", "cap-shape", "cap-surface", "cap-color"]

/-- UCIMushroomExtractor.validate (uci_mushroom_extractor.py:80-118):
False on an empty frame, on missing required columns, or when the class
column is not object dtype; any count of missing values only warns. -/
def uciValidate (df : DataFrame) : Bool :=
  if df.isEmptyB then false
  else if !(uciRequiredColumns.all (fun c => df.colNames.contains c)) then false
  else
    match df.dtypeOf "class" with
    | some .dstr => true
    | _ => false

/-- FileExtractor.validate (file_extractor.py:79-105): False only on an
empty frame; a missing-value percentage above 50 only warns. -/
def fileValidate (df : DataFrame) : Bool :=
  if df.isEmptyB then false else true

/-! ### Heap model for the in-place-mutation claim

Python DataFrames are heap objects; .copy() allocates a fresh one, a
column assignment data[col] = ... mutates the object behind the reference,
and plain rebinding (data = data.drop_duplicates()) points the local name
at a freshly allocated frame.  The store is the list of allocated frames,
a reference an index into it.  The transform methods are re-expressed as
store programs whose data content is the pure functions above; what this
model adds is exactly which references each method allocates and writes. -/

abbrev Ref := Nat

abbrev Store := List DataFrame

/-- Dereference (a dangling reference yields a dummy empty frame; the
programs below never produce one). -/
def readR (σ : Store) (r : Ref) : DataFrame :=
  σ.getD r ⟨[], []⟩

/-- Allocate a fresh frame (DataFrame.copy, or any pandas call returning a
new frame). -/
def allocR (σ : Store) (df : DataFrame) : Store × Ref :=
  (σ ++ [df], σ.length)

/-- Mutate the frame behind a reference (data[col] = ...). -/
def writeR (σ : Store) (r : Ref) (df : DataFrame) : Store :=
  σ.set r df

/-- A store program neither shrinks the store, nor changes any
pre-existing frame, and returns a reference allocated by itself.  This is
the observable content of "operates on a copy and returns a new table". -/
def FramePreserving (p : Ref → Store → Store × Ref) : Prop :=
  ∀ r σ,
    σ.length ≤ ((p r σ).1).length ∧
    (∀ i, i < σ.length → ((p r σ).1)[i]? = σ[i]?) ∧
    σ.length ≤ (p r σ).2

/-- Specification of one in-place phase of a transform working on the
frame behind c: the store only grows, no frame other than the one behind c
changes, the returned reference is c itself or freshly allocated, and the
returned frame's value is the pure function g of the input frame. -/
def PhaseSpec (p : Ref → Store → Store × Ref) (g : DataFrame → DataFrame) :
    Prop :=
  ∀ c σ, c < σ.length →
    σ.length ≤ (p c σ).1.length ∧
    (∀ i, i < σ.length → i ≠ c → (p c σ).1[i]? = σ[i]?) ∧
    (p c σ).2 < (p c σ).1.length ∧
    ((p c σ).2 = c ∨ σ.length ≤ (p c σ).2) ∧
    readR (p c σ).1 (p c σ).2 = g (readR σ c)

/-- Invariant of an intermediate (store, reference) state relative to the
store a transform was entered with: the entry frames are intact and the
current reference is to a frame allocated since entry. -/
def StoreInv (σ : Store) (s : Store × Ref) : Prop :=
  σ.length ≤ s.1.length ∧
  (∀ i, i < σ.length → s.1[i]? = σ[i]?) ∧
  σ.length ≤ s.2 ∧ s.2 < s.1.length

/-- DataCleaner._handle_missing_values as a store program on the frame
behind c: the drop branch rebinds to two freshly allocated frames
(drop(columns=...), then dropna()); the fill branch mutates the frame
behind c in place, one column at a time; impute (no branch) does
nothing. -/
def cleanerMissingProg (hm : HandleMissing) (threshold : ℚ) (c : Ref)
    (σ : Store) : Store × Ref :=
  let df := readR σ c
  let missing := missingColNames df
  if missing.isEmpty then (σ, c)
  else
    match hm with
    | .hdrop =>
      let n : ℚ := (df.rows.length : ℚ)
      let toDrop := missing.filter (fun col =>
        (countNulls df col : ℚ) / n > threshold)
      let q := allocR σ (dropColsDF df toDrop)
      allocR q.1 (dropnaRows (readR q.1 q.2))
    | .hfill =>
      (missing.foldl (fun s nm => writeR s c (fillCol (readR s c) nm)) σ, c)
    | .himpute => (σ, c)

/-- DataCleaner._handle_outliers as a store program: each column iteration
rebinds to a freshly allocated filtered frame. -/
def cleanerOutlierProg (om : OutlierMethod) (t : ℚ) (c : Ref) (σ : Store) :
    Store × Ref :=
  let df := readR σ c
  let numeric := (df.cols.filter (fun p => p.2 = DType.dnum)).map Prod.fst
  if numeric.isEmpty then (σ, c)
  else
    match om with
    | .iqr =>
      numeric.foldl
        (fun (p : Store × Ref) nm => allocR p.1 (iqrFilterCol (readR p.1 p.2) nm))
        (σ, c)
    | .zscore =>
      numeric.foldl
        (fun (p : Store × Ref) nm =>
          allocR p.1 (zscoreFilterCol t (readR p.1 p.2) nm))
        (σ, c)
    | .isolationForest => (σ, c)

/-- DataCleaner._standardize_text as a store program: in-place writes on
the frame behind c, one object column at a time (the column list is read
once at entry). -/
def stdTextProgStore (c : Ref) (σ : Store) : Store :=
  ((((readR σ c).cols.filter (fun p => p.2 = DType.dstr)).map Prod.fst).foldl
    (fun s nm => writeR s c (stdCol (readR s c) nm)) σ)

/-- DataCleaner.transform as a store program (data_cleaner.py:36-79): the
input frame behind r is only read; cleaned_data starts as a fresh copy and
every subsequent mutation or rebinding stays on frames allocated here. -/
def cleanerProg (cfg : CleanerConfig) (r : Ref) (σ : Store) : Store × Ref :=
  let p1 := allocR σ (readR σ r)
  let p2 :=
    if cfg.removeDuplicates then
      allocR p1.1 ⟨(readR p1.1 p1.2).cols, dedupFirst (readR p1.1 p1.2).rows⟩
    else p1
  let p3 := cleanerMissingProg cfg.handleMissing cfg.missingThreshold p2.2 p2.1
  let p4 := cleanerOutlierProg cfg.outlierMethod cfg.outlierThreshold p3.2 p3.1
  if cfg.standardizeText then (stdTextProgStore p4.2 p4.1, p4.2)
  else p4

/-- target = engineered_data[target_column]: the target Series as a
one-column frame. -/
def seriesOf (df : DataFrame) (nm : String) : DataFrame :=
  match df.colIdx nm with
  | none => ⟨[], []⟩
  | some i =>
    ⟨[df.cols.getD i ("", DType.dstr)],
     df.rows.map (fun r => [r.getD i Value.vnull])⟩

/-- pd.concat([features, target], axis=1) for frames whose rows are
positionally aligned (they are: features descends from the same copy the
target Series was taken from). -/
def concatAxis1 (a b : DataFrame) : DataFrame :=
  ⟨a.cols ++ b.cols, (a.rows.zip b.rows).map (fun p => p.1 ++ p.2)⟩

/-- The method _encode_categorical as a store program on the current frame: onehot
allocates (get_dummies returns a new frame); label/target copy the frame
(encoded_data = data.copy()) and then assign each encoded column in
place on that copy. -/
def fePhaseEncode (enc : CatEncoding) (s : Store × Ref) : Store × Ref :=
  let cats := catColNames (readR s.1 s.2)
  if cats.isEmpty then s
  else
    match enc with
    | .onehot => allocR s.1 (getDummies (readR s.1 s.2))
    | .label =>
      let q := allocR s.1 (readR s.1 s.2)
      (cats.foldl (fun st nm => writeR st q.2 (labelEncodeCol (readR st q.2) nm))
        q.1, q.2)
    | .target =>
      let q := allocR s.1 (readR s.1 s.2)
      (cats.foldl (fun st nm => writeR st q.2 (targetEncodeCol (readR st q.2) nm))
        q.1, q.2)

/-- The methods _create_interactions and _scale_features share one store shape: copy
the frame, then assign columns in place on the copy (the assigned values
are the abstracted sklearn computation f). -/
def fePhaseCopyWrite (b : Bool) (f : DataFrame → DataFrame)
    (s : Store × Ref) : Store × Ref :=
  if b then
    let q := allocR s.1 (readR s.1 s.2)
    (writeR q.1 q.2 (f (readR q.1 q.2)), q.2)
  else s

/-- The method _select_features: copy the frame, then rebind to the column-subset
frame (selected_data = selected_data[selected_columns] allocates). -/
def fePhaseSelect (b : Bool) (f : DataFrame → DataFrame)
    (s : Store × Ref) : Store × Ref :=
  if b then
    let q := allocR s.1 (readR s.1 s.2)
    allocR q.1 (f (readR q.1 q.2))
  else s

/-- FeatureEngineer.transform as a store program (feature_engineer.py:
57-102).  The numeric content of scaling, feature selection and
interaction terms is sklearn float work, abstracted as the function
parameters scaleFn, selectFn and interactFn; the claim quantifies over
them, so it covers the actual computations.  What is kept from the source
is the reference discipline: engineered_data = data.copy() allocates; the
drop/get_dummies/copy calls allocate; column assignments write only to
frames allocated inside this call. -/
def feProg (enc : CatEncoding) (targetCol : String)
    (createInteractions featureScaling featureSelection : Bool)
    (scaleFn selectFn interactFn : DataFrame → DataFrame)
    (r : Ref) (σ : Store) : Store × Ref :=
  let p1 := allocR σ (readR σ r)
  let hasTarget := (readR p1.1 p1.2).colNames.contains targetCol
  let target := seriesOf (readR p1.1 p1.2) targetCol
  let p2 :=
    if hasTarget then allocR p1.1 (dropColsDF (readR p1.1 p1.2) [targetCol])
    else p1
  let p3 := fePhaseEncode enc p2
  let p4 := fePhaseCopyWrite createInteractions interactFn p3
  let p5 := fePhaseCopyWrite featureScaling scaleFn p4
  let p6 := fePhaseSelect (featureSelection && hasTarget) selectFn p5
  if hasTarget then allocR p6.1 (concatAxis1 (readR p6.1 p6.2) target)
  else p6

/-- A transformer as seen by the loading loop of run_transformations in
the heap model: its transform as a store program plus its validate. -/
structure TransformerP where
  prog : Ref → Store → Store × Ref
  validate : DataFrame → Bool

/-- TransformationPipeline.run_transformations in the heap model
(transformation_pipeline.py:42-67): current_data starts as a fresh copy of
the caller's frame; each transformer is run on the current reference, and
only a validated output replaces it. -/
def runTransProgStore (tps : List TransformerP) (r : Ref) (σ : Store) :
    Store × Ref :=
  let p0 := allocR σ (readR σ r)
  tps.foldl
    (fun (p : Store × Ref) tp =>
      let q := tp.prog p.2 p.1
      if tp.validate (readR q.1 q.2) then q else (q.1, p.2))
    p0

/-! ### Concrete fixtures for witnesses and counterexamples -/

/-- A 2-row mushroom batch (the spec's example scenario of section 8). -/
def dfMush : DataFrame :=
  ⟨[("class", .dstr), ("odor", .dstr)],
   [[.vstr "e", .vstr "n"], [.vstr "p", .vstr "f"]]⟩

/-- A frame with a schema but no rows (empty in the pandas sense). -/
def dfEmptyRows : DataFrame := ⟨[("class", .dstr)], []⟩

/-- A file-style extractor that delivers dfMush. -/
def extGood : Extractor :=
  ⟨"file_data", .ok dfMush, fun df => .ok (fileValidate df)⟩

/-- An extractor whose extract() raises. -/
def extRaise : Extractor :=
  ⟨"api_data", .error "connection error", fun _ => .ok true⟩

/-- A transformer that succeeds with an empty, positively validated
output (a BaseTransformer subclass is free to accept an empty frame). -/
def trEmptyOut : Transformer :=
  ⟨"data_cleaner", fun _ => .ok dfEmptyRows, fun _ => .ok true⟩

/-- An identity transformer not named feature_engineer. -/
def trOther : Transformer :=
  ⟨"data_cleaner", fun df => .ok df, fun _ => .ok true⟩

/-- An identity transformer named feature_engineer. -/
def trFeId : Transformer :=
  ⟨"feature_engineer", fun df => .ok df, fun df => .ok (featureEngineerValidate df)⟩

/-- A loader that validates and loads successfully. -/
def ldGood : Loader :=
  ⟨"database_loader", fun _ => .ok true, fun _ => .ok true⟩

/-- A loader whose load raises. -/
def ldRaise : Loader :=
  ⟨"file_loader", fun _ => .ok true, fun _ => .error "disk full"⟩

/-- Two rows that differ only by letter case: text standardization makes
them duplicates of each other after duplicate removal already ran. -/
def dfTextCase : DataFrame :=
  ⟨[("name", .dstr)], [[.vstr "A"], [.vstr "a"]]⟩

/-- A text table already standardized (lowercase, trimmed, single-spaced). -/
def dfStdText : DataFrame :=
  ⟨[("name", .dstr)], [[.vstr "ab"], [.vstr "cd"]]⟩

/-- A categorical column with a missing value in the second row. -/
def dfOdorNull : DataFrame :=
  ⟨[("odor", .dstr)], [[.vstr "n"], [.vnull]]⟩

/-- A non-empty frame with all required UCI columns present but a numeric
class column. -/
def dfClassNum : DataFrame :=
  ⟨[("class", .dnum), ("cap-shape", .dstr), ("cap-surface", .dstr),
    ("cap-color", .dstr)],
   [[.vnum 0, .vstr "x", .vstr "s", .vstr "n"]]⟩

/-- A pipeline with no components: extraction yields no data and the run
fails. -/
def cfgNone : PipelineConfig := ⟨[], [], []⟩

/-- A pipeline whose sole transformer succeeds with a validated empty
output. -/
def cfgEmptyOut : PipelineConfig := ⟨[extGood], [trEmptyOut], [ldGood]⟩

/-- A pipeline whose transformation succeeds but under a name other than
feature_engineer, with a loader that would accept the table. -/
def cfgNoFe : PipelineConfig := ⟨[extGood], [trOther], [ldGood]⟩

/-! ## Theorems -/

/-! ### Helper lemmas on the dict and duplicate-removal primitives -/

theorem lookupA_updateAssoc_self (l : List (String × α)) (k : String) (v : α) :
    lookupA (updateAssoc l k v) k = some v := by
  induction l with
  | nil => simp [updateAssoc, lookupA]
  | cons h t ih =>
    by_cases hk : h.1 = k
    · simp [updateAssoc, lookupA, hk]
    · simp only [updateAssoc, if_neg hk, lookupA, if_neg hk, ih]


theorem lookupA_updateAssoc_ne (l : List (String × α)) (k k' : String) (v : α)
    (h : k' ≠ k) : lookupA (updateAssoc l k v) k' = lookupA l k' := by
  have hk' : ¬ (k = k') := fun hh => h hh.symm
  induction l with
  | nil => simp only [updateAssoc, lookupA, if_neg hk']
  | cons hd t ih =>
    by_cases hk : hd.1 = k
    · simp only [updateAssoc, if_pos hk, lookupA, if_neg hk', if_neg (hk ▸ hk')]
    · simp only [updateAssoc, if_neg hk, lookupA, ih]


theorem lookupA_isSome_iff (l : List (String × α)) (k : String) :
    (lookupA l k).isSome ↔ ∃ p ∈ l, p.1 = k := by
  induction l with
  | nil => simp [lookupA]
  | cons h t ih =>
    by_cases hk : h.1 = k
    · simp only [lookupA, if_pos hk, Option.isSome_some, true_iff, List.mem_cons]
      exact ⟨h, Or.inl rfl, hk⟩
    · simp only [lookupA, if_neg hk, ih, List.mem_cons]
      constructor
      · rintro ⟨p, hp, hpk⟩; exact ⟨p, Or.inr hp, hpk⟩
      · rintro ⟨p, hp | hp, hpk⟩
        · exact absurd (hp ▸ hpk) hk
        · exact ⟨p, hp, hpk⟩


theorem mem_dedupFirst {l : List α} {a : α} : a ∈ dedupFirst l ↔ a ∈ l := by
  induction l with
  | nil => simp [dedupFirst]
  | cons x xs ih =>
    simp only [dedupFirst, List.mem_cons, List.mem_filter, ih,
      decide_eq_true_eq, ne_eq]
    constructor
    · rintro (rfl | ⟨h, _⟩)
      · exact Or.inl rfl
      · exact Or.inr h
    · rintro (rfl | h)
      · exact Or.inl rfl
      · by_cases hax : a = x
        · exact Or.inl hax
        · exact Or.inr ⟨h, hax⟩


theorem nodup_dedupFirst (l : List α) : (dedupFirst l).Nodup := by
  induction l with
  | nil => simp [dedupFirst]
  | cons x xs ih =>
    simp only [dedupFirst, List.nodup_cons]
    constructor
    · intro hmem
      have := (List.mem_filter.mp hmem).2
      simp at this
    · exact ih.filter _


theorem dedupFirst_eq_self_of_nodup {l : List α} (h : l.Nodup) :
    dedupFirst l = l := by
  induction l with
  | nil => rfl
  | cons x xs ih =>
    rw [List.nodup_cons] at h
    rw [dedupFirst, ih h.2, List.filter_eq_self.mpr]
    intro a ha
    simp only [ne_eq, decide_eq_true_eq]
    intro hax
    exact h.1 (hax ▸ ha)


theorem dedupFirst_idem (l : List α) :
    dedupFirst (dedupFirst l) = dedupFirst l :=
  dedupFirst_eq_self_of_nodup (nodup_dedupFirst l)


/-! ### Stage-entry shape lemmas: a stage records an entry iff it
succeeded, and a recorded entry always carries success: True (the
except branches that would record success: False are unreachable, every
component call being caught inside the orchestrator loops). -/

theorem exStage_rec (es : List Extractor) :
    (runExtractionStage es).2.1 =
      if (runExtractionStage es).1 then some ⟨true⟩ else none := by
  unfold runExtractionStage
  dsimp only
  split <;> rfl

theorem trStage_rec (ts : List Transformer) (exR : List (String × DataFrame)) :
    (runTransformationStage ts exR).2.1 =
      if (runTransformationStage ts exR).1 then some ⟨true⟩ else none := by
  unfold runTransformationStage
  dsimp only
  split
  · rfl
  · split <;> rfl

theorem ldStage_rec (ls : List Loader) (trR : List (String × DataFrame)) :
    (runLoadingStage ls trR).2 =
      if (runLoadingStage ls trR).1 then some ⟨true⟩ else none := by
  unfold runLoadingStage
  split
  · rfl
  · dsimp only
    split
    · rfl
    · split <;> rfl

/-- C1.  ETLPipeline.run_pipeline() returns True iff all three stage
results recorded in stats["stages"] show success: True; the final status
is "completed" exactly when it returns True (and "failed" whenever it
returns False); and no recorded stage entry ever shows success: False —
so in particular a stage reporting failure forces a False return and a
"failed" status. -/
theorem run_pipeline_true_iff_stages_successful (cfg : PipelineConfig) :
    ((runPipeline cfg).ok = true ↔
      ((runPipeline cfg).stages.extraction = some ⟨true⟩ ∧
       (runPipeline cfg).stages.transformation = some ⟨true⟩ ∧
       (runPipeline cfg).stages.loading = some ⟨true⟩)) ∧
    ((runPipeline cfg).status = PStatus.completed ↔ (runPipeline cfg).ok = true) ∧
    ((runPipeline cfg).ok = false → (runPipeline cfg).status = PStatus.failed) ∧
    (runPipeline cfg).stages.extraction ≠ some ⟨false⟩ ∧
    (runPipeline cfg).stages.transformation ≠ some ⟨false⟩ ∧
    (runPipeline cfg).stages.loading ≠ some ⟨false⟩ := by
  have hex := exStage_rec cfg.extractors
  have htr := trStage_rec cfg.transformers (runExtractionStage cfg.extractors).2.2
  have hld := ldStage_rec cfg.loaders
    (runTransformationStage cfg.transformers (runExtractionStage cfg.extractors).2.2).2.2.2
  unfold runPipeline
  dsimp only
  split_ifs with h1 h2 h3 <;> simp_all

/-- C1 witness: a componentless pipeline fails, exercising the
failure-implies-failed-status conjunct at a concrete input. -/
theorem run_pipeline_true_iff_stages_successful_witness :
    (runPipeline cfgNone).ok = false ∧
    (runPipeline cfgNone).status = PStatus.failed :=
  ⟨by decide, (run_pipeline_true_iff_stages_successful cfgNone).2.2.1 (by decide)⟩

/-! ### C3: loading fan-out -/

theorem loadStep_counts (df : DataFrame) (acc : LoadingRun) (l : Loader) :
    (loadStep df acc l).succ = acc.succ + (if loaderOk l df then 1 else 0) ∧
    (loadStep df acc l).fail = acc.fail + (if loaderOk l df then 0 else 1) := by
  unfold loadStep loaderOk
  cases hv : l.validate df with
  | error e => simp
  | ok b =>
    cases b
    · simp
    · cases hl : l.load df with
      | error e => simp
      | ok c => cases c <;> simp

theorem runLoadings_counts (ls : List Loader) (df : DataFrame) (acc : LoadingRun) :
    (ls.foldl (loadStep df) acc).succ =
      acc.succ + ls.countP (fun l => loaderOk l df) ∧
    (ls.foldl (loadStep df) acc).fail =
      acc.fail + ls.countP (fun l => !loaderOk l df) := by
  induction ls generalizing acc with
  | nil => simp
  | cons l t ih =>
    simp only [List.foldl_cons, List.countP_cons]
    have hs := loadStep_counts df acc l
    have ht := ih (loadStep df acc l)
    rw [ht.1, ht.2, hs.1, hs.2]
    constructor <;> by_cases h : loaderOk l df <;> simp [h] <;> omega

theorem runLoadings_fst_eq_any (ls : List Loader) (df : DataFrame) :
    (runLoadings ls df).1 = ls.any (fun l => loaderOk l df) := by
  unfold runLoadings
  dsimp only
  have h := (runLoadings_counts ls df ⟨[], 0, 0⟩).1
  rw [h]
  simp only [Nat.zero_add]
  by_cases ha : ls.any (fun l => loaderOk l df) = true
  · simp only [ha, decide_eq_true_eq]
    rw [List.any_eq_true] at ha
    obtain ⟨l, hl, hok⟩ := ha
    exact List.countP_pos.mpr ⟨l, hl, hok⟩
  · rw [Bool.not_eq_true] at ha
    simp only [ha, decide_eq_false_iff_not, Nat.pos_iff_ne_zero, ne_eq, not_not]
    rw [List.countP_eq_zero]
    intro a hal
    have := List.any_eq_false.mp ha a hal
    simpa using this

/-- C3.  LoadingPipeline.run_loadings returns True iff at least one
configured loader succeeds (validates and loads successfully) against the
one table every loader receives; the cons equation shows a failing or
raising loader never prevents the remaining loaders from deciding the
outcome, and the counters account for every loader. -/
theorem run_loadings_true_iff_some_loader_succeeds
    (ls : List Loader) (l : Loader) (df : DataFrame) :
    ((runLoadings ls df).1 = ls.any (fun x => loaderOk x df)) ∧
    ((runLoadings (l :: ls) df).1 = (loaderOk l df || (runLoadings ls df).1)) ∧
    ((runLoadings ls df).2.succ + (runLoadings ls df).2.fail = ls.length) := by
  refine ⟨runLoadings_fst_eq_any ls df, ?_, ?_⟩
  · rw [runLoadings_fst_eq_any, runLoadings_fst_eq_any, List.any_cons]
  · have h := runLoadings_counts ls df ⟨[], 0, 0⟩
    unfold runLoadings
    dsimp only
    rw [h.1, h.2]
    simp only [Nat.zero_add]
    have hlen := List.length_eq_countP_add_countP (fun l => loaderOk l df) ls
    simp only [decide_not, Bool.decide_eq_true] at hlen
    omega

/-! ### C4: extraction fan-out returns exactly the successes -/

theorem extractorSucceeds_iff_table (e : Extractor) :
    extractorSucceeds e = true ↔ ∃ df, extractorTable e = some df := by
  unfold extractorSucceeds extractorTable
  cases he : e.extract with
  | error msg => simp
  | ok data =>
    cases hv : e.validate data with
    | error msg => simp [hv]
    | ok b => cases b <;> simp [hv]

theorem extStep_results_of_table (acc : ExtractionRun) {e : Extractor}
    {df : DataFrame} (h : extractorTable e = some df) :
    (extStep acc e).results = updateAssoc acc.results e.name df := by
  unfold extractorTable at h
  unfold extStep
  cases he : e.extract with
  | error msg => simp [he] at h
  | ok data =>
    simp only [he] at h ⊢
    cases hv : e.validate data with
    | error msg => simp [hv] at h
    | ok b =>
      cases b
      · simp [hv] at h
      · simp only [hv] at h ⊢
        cases h
        rfl

theorem extStep_results_of_fails (acc : ExtractionRun) {e : Extractor}
    (h : extractorSucceeds e = false) :
    (extStep acc e).results = acc.results := by
  unfold extractorSucceeds at h
  unfold extStep
  cases he : e.extract with
  | error msg => simp [he]
  | ok data =>
    simp only [he] at h ⊢
    cases hv : e.validate data with
    | error msg => simp [hv]
    | ok b =>
      simp only [hv] at h ⊢
      cases b
      · rfl
      · cases h

theorem lookupA_updateAssoc_isSome (l : List (String × α)) (k k' : String)
    (v : α) :
    (lookupA (updateAssoc l k v) k').isSome ↔
      k' = k ∨ (lookupA l k').isSome := by
  by_cases h : k' = k
  · subst h
    rw [lookupA_updateAssoc_self]
    simp
  · rw [lookupA_updateAssoc_ne l k k' v h]
    simp [h]

theorem lookup_foldl_extStep (es : List Extractor) (acc : ExtractionRun)
    (name : String) :
    (lookupA (es.foldl extStep acc).results name).isSome ↔
      (lookupA acc.results name).isSome ∨
        ∃ e ∈ es, e.name = name ∧ extractorSucceeds e = true := by
  induction es generalizing acc with
  | nil => simp
  | cons a t ih =>
    simp only [List.foldl_cons, List.mem_cons]
    rw [ih]
    by_cases hs : extractorSucceeds a = true
    · obtain ⟨df, hdf⟩ := (extractorSucceeds_iff_table a).mp hs
      rw [extStep_results_of_table acc hdf,
        lookupA_updateAssoc_isSome acc.results a.name name df]
      constructor
      · rintro ((rfl | h) | h)
        · exact Or.inr ⟨a, Or.inl rfl, rfl, hs⟩
        · exact Or.inl h
        · obtain ⟨e, he, hn, hsu⟩ := h
          exact Or.inr ⟨e, Or.inr he, hn, hsu⟩
      · rintro (h | ⟨e, (rfl | he), hn, hsu⟩)
        · exact Or.inl (Or.inr h)
        · exact Or.inl (Or.inl hn.symm)
        · exact Or.inr ⟨e, he, hn, hsu⟩
    · rw [Bool.not_eq_true] at hs
      rw [extStep_results_of_fails acc hs]
      constructor
      · rintro (h | ⟨e, he, hn, hsu⟩)
        · exact Or.inl h
        · exact Or.inr ⟨e, Or.inr he, hn, hsu⟩
      · rintro (h | ⟨e, (rfl | he), hn, hsu⟩)
        · exact Or.inl h
        · rw [hs] at hsu; cases hsu
        · exact Or.inr ⟨e, he, hn, hsu⟩

theorem lookup_foldl_extStep_of_no_name (es : List Extractor)
    (acc : ExtractionRun) (name : String)
    (h : ∀ e ∈ es, e.name ≠ name) :
    lookupA (es.foldl extStep acc).results name = lookupA acc.results name := by
  induction es generalizing acc with
  | nil => rfl
  | cons a t ih =>
    simp only [List.foldl_cons]
    rw [ih (extStep acc a) (fun e he => h e (List.mem_cons_of_mem a he))]
    by_cases hs : extractorSucceeds a = true
    · obtain ⟨df, hdf⟩ := (extractorSucceeds_iff_table a).mp hs
      rw [extStep_results_of_table acc hdf]
      exact lookupA_updateAssoc_ne acc.results a.name name df
        (fun hh => h a (List.mem_cons_self a t) hh.symm)
    · rw [Bool.not_eq_true] at hs
      rw [extStep_results_of_fails acc hs]

theorem lookup_foldl_extStep_of_mem (es : List Extractor)
    (acc : ExtractionRun) (e : Extractor) (df : DataFrame)
    (hmem : e ∈ es) (htab : extractorTable e = some df)
    (hnodup : (es.map Extractor.name).Nodup) :
    lookupA (es.foldl extStep acc).results e.name = some df := by
  induction es generalizing acc with
  | nil => cases hmem
  | cons a t ih =>
    simp only [List.map_cons, List.nodup_cons] at hnodup
    rcases List.mem_cons.mp hmem with rfl | hmem2
    · simp only [List.foldl_cons]
      rw [lookup_foldl_extStep_of_no_name t (extStep acc e) e.name
        (fun e2 he2 hn => hnodup.1 (hn ▸ List.mem_map_of_mem Extractor.name he2))]
      rw [extStep_results_of_table acc htab]
      exact lookupA_updateAssoc_self acc.results e.name df
    · simp only [List.foldl_cons]
      exact ih (extStep acc a) hmem2 hnodup.2

/-- C4.  run_all_extractions calls every extractor in order; an extractor
that raises or fails validation is skipped while the rest still run, and
the returned mapping holds exactly the names of the extractors whose
extract succeeded and whose validate returned True; with distinct
extractor names each such name maps to that extractor's extracted
table. -/
theorem run_all_extractions_results_exact (es : List Extractor)
    (name : String) (e : Extractor) :
    ((lookupA (runAllExtractions es).results name).isSome ↔
      ∃ x ∈ es, x.name = name ∧ extractorSucceeds x = true) ∧
    ((es.map Extractor.name).Nodup → e ∈ es →
      ∀ df, extractorTable e = some df →
        lookupA (runAllExtractions es).results e.name = some df) := by
  constructor
  · unfold runAllExtractions
    rw [lookup_foldl_extStep es ⟨[], 0, 0⟩ name]
    simp [lookupA]
  · intro hnodup hmem df htab
    exact lookup_foldl_extStep_of_mem es ⟨[], 0, 0⟩ e df hmem htab hnodup

/-- C4 witness: with a succeeding file extractor followed by a raising
API extractor, the mapping holds exactly the success. -/
theorem run_all_extractions_results_exact_witness :
    lookupA (runAllExtractions [extGood, extRaise]).results "file_data" =
      some dfMush ∧
    lookupA (runAllExtractions [extGood, extRaise]).results "api_data" = none :=
  ⟨(run_all_extractions_results_exact [extGood, extRaise] "file_data" extGood).2
      (by decide) (List.mem_cons_self _ _) dfMush rfl,
   rfl⟩

/-! ### C5: transformation threading -/

theorem runTransStep_none {t : Transformer} {d : DataFrame}
    (rs : List (String × DataFrame)) (h : transStep t d = none) :
    runTransStep (d, rs) t = (d, rs) := by
  unfold runTransStep
  rw [h]

theorem runTransStep_some {t : Transformer} {d out : DataFrame}
    (rs : List (String × DataFrame)) (h : transStep t d = some out) :
    runTransStep (d, rs) t = (out, updateAssoc rs t.name out) := by
  unfold runTransStep
  rw [h]

theorem traceStep_none {t : Transformer} {d : DataFrame}
    (acc : List DataFrame) (h : transStep t d = none) :
    traceStep (d, acc) t = (d, acc) := by
  unfold traceStep
  rw [h]

theorem traceStep_some {t : Transformer} {d out : DataFrame}
    (acc : List DataFrame) (h : transStep t d = some out) :
    traceStep (d, acc) t = (out, acc ++ [out]) := by
  unfold traceStep
  rw [h]

theorem fst_foldl_runTransStep (ts : List Transformer) (d : DataFrame)
    (rs rs2 : List (String × DataFrame)) :
    (ts.foldl runTransStep (d, rs)).1 = (ts.foldl runTransStep (d, rs2)).1 := by
  induction ts generalizing d rs rs2 with
  | nil => rfl
  | cons t t2 ih =>
    simp only [List.foldl_cons]
    cases h : transStep t d with
    | none => rw [runTransStep_none rs h, runTransStep_none rs2 h]; exact ih d rs rs2
    | some out => rw [runTransStep_some rs h, runTransStep_some rs2 h]; exact ih out _ _

theorem snd_foldl_traceStep (ts : List Transformer) (d : DataFrame)
    (acc : List DataFrame) :
    (ts.foldl traceStep (d, acc)).2 = acc ++ (ts.foldl traceStep (d, [])).2 := by
  induction ts generalizing d acc with
  | nil => simp
  | cons t t2 ih =>
    simp only [List.foldl_cons]
    cases h : transStep t d with
    | none => rw [traceStep_none acc h, traceStep_none [] h]; exact ih d acc
    | some out =>
      rw [traceStep_some acc h, traceStep_some [] h]
      rw [ih out (acc ++ [out]), ih out ([] ++ [out])]
      simp

/-- C5.  run_transformations threads the output of each successful
transformer as the input of the next (a failed transformer leaves the
previous data in place, as the cons equation shows), and the returned
DataFrame is the output of the last successful transformer — the input
itself when none succeeded. -/
theorem run_transformations_returns_last_success (ts : List Transformer)
    (t : Transformer) (data : DataFrame) :
    ((runTransformations ts data).1 =
      (transSuccessOutputs ts data).getLastD data) ∧
    ((runTransformations (t :: ts) data).1 =
      match transStep t data with
      | some out => (runTransformations ts out).1
      | none => (runTransformations ts data).1) := by
  constructor
  · induction ts generalizing data with
    | nil => rfl
    | cons a t2 ih =>
      unfold runTransformations transSuccessOutputs
      simp only [List.foldl_cons]
      cases h : transStep a data with
      | none =>
        rw [runTransStep_none [] h, traceStep_none [] h]
        exact ih data
      | some out =>
        rw [runTransStep_some [] h, traceStep_some [] h]
        rw [fst_foldl_runTransStep t2 out _ [],
          snd_foldl_traceStep t2 out ([] ++ [out])]
        simp only [List.nil_append, List.singleton_append, List.getLastD_cons]
        exact ih out
  · unfold runTransformations
    simp only [List.foldl_cons]
    cases h : transStep t data with
    | none =>
      rw [runTransStep_none [] h]
    | some out =>
      rw [runTransStep_some [] h]
      exact fst_foldl_runTransStep ts out _ []

/-! ### C10: the loading stage reads only the "feature_engineer" result -/

/-- C10.  Whenever the transformation results dict holds no non-empty
entry under the key "feature_engineer" (because no transformer of that
name recorded an output, or only an empty one), _run_loading_stage returns
False before invoking a single loader, and run_pipeline as a whole returns
False with status "failed" — regardless of the other transformers'
successes and of what the loaders would do with their output. -/
theorem loading_stage_requires_feature_engineer_result (cfg : PipelineConfig)
    (hfe : ((lookupA (runTransformationStage cfg.transformers
        (runExtractionStage cfg.extractors).2.2).2.2.2 "feature_engineer").all
        (fun df => df.isEmptyB)) = true) :
    (runLoadingStage cfg.loaders (runTransformationStage cfg.transformers
        (runExtractionStage cfg.extractors).2.2).2.2.2).1 = false ∧
    (runPipeline cfg).ok = false ∧
    (runPipeline cfg).status = PStatus.failed := by
  have hload : (runLoadingStage cfg.loaders (runTransformationStage
      cfg.transformers (runExtractionStage cfg.extractors).2.2).2.2.2).1 =
      false := by
    unfold runLoadingStage
    cases hl : lookupA (runTransformationStage cfg.transformers
        (runExtractionStage cfg.extractors).2.2).2.2.2 "feature_engineer" with
    | none => rfl
    | some df =>
      rw [hl] at hfe
      simp only [Option.all_some] at hfe
      simp [hfe]
  refine ⟨hload, ?_⟩
  unfold runPipeline
  dsimp only
  split_ifs with h1 h2 h3
  · rw [hload] at h3
    cases h3
  · exact ⟨rfl, rfl⟩
  · exact ⟨rfl, rfl⟩
  · exact ⟨rfl, rfl⟩

/-- C10 witness: a pipeline whose transformation succeeds only under the
name data_cleaner, with a loader that accepts the table, still fails. -/
theorem loading_stage_requires_feature_engineer_result_witness :
    loaderOk ldGood dfMush = true ∧
    (runPipeline cfgNoFe).ok = false ∧
    (runPipeline cfgNoFe).status = PStatus.failed :=
  ⟨by decide,
   (loading_stage_requires_feature_engineer_result cfgNoFe (by decide)).2.1,
   (loading_stage_requires_feature_engineer_result cfgNoFe (by decide)).2.2⟩

/-! ### C2: when a stage is reported failed -/

theorem updateAssoc_ne_nil (l : List (String × α)) (k : String) (v : α) :
    updateAssoc l k v ≠ [] := by
  cases l with
  | nil => simp [updateAssoc]
  | cons h t =>
    unfold updateAssoc
    split <;> simp

theorem results_foldl_extStep_nil_iff (es : List Extractor)
    (acc : ExtractionRun) :
    (es.foldl extStep acc).results = [] ↔
      acc.results = [] ∧ ∀ e ∈ es, extractorSucceeds e = false := by
  induction es generalizing acc with
  | nil => simp
  | cons a t ih =>
    simp only [List.foldl_cons, List.mem_cons]
    rw [ih]
    by_cases hs : extractorSucceeds a = true
    · obtain ⟨df, hdf⟩ := (extractorSucceeds_iff_table a).mp hs
      rw [extStep_results_of_table acc hdf]
      constructor
      · rintro ⟨hnil, -⟩
        exact absurd hnil (updateAssoc_ne_nil acc.results a.name df)
      · rintro ⟨-, hall⟩
        rw [hall a (Or.inl rfl)] at hs
        cases hs
    · rw [Bool.not_eq_true] at hs
      rw [extStep_results_of_fails acc hs]
      constructor
      · rintro ⟨hnil, hall⟩
        exact ⟨hnil, fun e he => he.elim (fun hh => hh ▸ hs) (hall e)⟩
      · rintro ⟨hnil, hall⟩
        exact ⟨hnil, fun e he => hall e (Or.inr he)⟩

/-- C2 counterexample: the claim as stated is false on the code.  In
cfgEmptyOut the extraction succeeds and the sole transformer succeeds (its
output is recorded in the results dict under its name), yet the
transformation stage is reported failed — and the pipeline fails — because
that validated output is empty. -/
theorem stage_failed_despite_component_success :
    (runTransformationStage cfgEmptyOut.transformers
        (runExtractionStage cfgEmptyOut.extractors).2.2).1 = false ∧
    (lookupA (runTransformationStage cfgEmptyOut.transformers
        (runExtractionStage cfgEmptyOut.extractors).2.2).2.2.2
        "data_cleaner").isSome = true ∧
    (runPipeline cfgEmptyOut).ok = false ∧
    (runPipeline cfgEmptyOut).status = PStatus.failed := by
  decide

/-- C2 as amended.  A stage is reported failed only when all of its
components failed or produced invalid output, except for the two
output-availability checks: the transformation stage fails exactly when
the final transformed table is empty (so a transformation stage whose
final table is non-empty is reported successful, whether or not any
transformer failed), and the loading stage also fails when the
feature_engineer result is missing or empty before any loader runs. -/
theorem stage_reported_failed_only_when (es : List Extractor)
    (ts : List Transformer) (ls : List Loader)
    (exR trR : List (String × DataFrame)) :
    ((runExtractionStage es).1 = false →
      ∀ e ∈ es, extractorSucceeds e = false) ∧
    (exR ≠ [] →
      ((runTransformationStage ts exR).1 = false ↔
        (runTransformations ts (concatDF (exR.map Prod.snd))).1.isEmptyB = true)) ∧
    (exR ≠ [] →
      (runTransformations ts (concatDF (exR.map Prod.snd))).1.isEmptyB = false →
      (runTransformationStage ts exR).1 = true ∧
      (runTransformationStage ts exR).2.1 = some ⟨true⟩) ∧
    ((runLoadingStage ls trR).1 = false →
      ((lookupA trR "feature_engineer").all (fun df => df.isEmptyB) = true ∨
       ∃ df, lookupA trR "feature_engineer" = some df ∧ df.isEmptyB = false ∧
         ∀ l ∈ ls, loaderOk l df = false)) := by
  refine ⟨?_, ?_, ?_, ?_⟩
  · intro hfail e he
    unfold runExtractionStage at hfail
    dsimp only at hfail
    split at hfail
    · rename_i hnil
      rw [List.isEmpty_iff] at hnil
      unfold runAllExtractions at hnil
      exact ((results_foldl_extStep_nil_iff es ⟨[], 0, 0⟩).mp hnil).2 e he
    · cases hfail
  · intro hne
    unfold runTransformationStage
    rw [if_neg (by simpa [List.isEmpty_iff] using hne)]
    dsimp only
    split
    · rename_i hempty
      simpa using hempty
    · rename_i hempty
      simp only [Bool.false_eq_true, false_iff]
      simpa using hempty
  · intro hne hfull
    unfold runTransformationStage
    rw [if_neg (by simpa [List.isEmpty_iff] using hne)]
    dsimp only
    rw [if_neg (by simp [hfull])]
    exact ⟨rfl, rfl⟩
  · intro hfail
    unfold runLoadingStage at hfail
    cases hl : lookupA trR "feature_engineer" with
    | none => exact Or.inl rfl
    | some df =>
      rw [hl] at hfail
      dsimp only at hfail
      by_cases hempty : df.isEmptyB = true
      · exact Or.inl (by simpa using hempty)
      · rw [Bool.not_eq_true] at hempty
        rw [if_neg (by simp [hempty])] at hfail
        refine Or.inr ⟨df, rfl, hempty, ?_⟩
        intro l hls
        split at hfail
        · cases hfail
        · rename_i hrl
          have := runLoadings_fst_eq_any ls df
          rw [Bool.not_eq_true] at hrl
          rw [this] at hrl
          have := List.any_eq_false.mp hrl l hls
          simpa using this

/-- C2 amended witness: a stage whose every component failed is reported
failed (extraction with one raising extractor), and a transformation stage
with a non-empty final table is reported successful. -/
theorem stage_reported_failed_only_when_witness :
    extractorSucceeds extRaise = false ∧
    (runTransformationStage [trOther] [("file_data", dfMush)]).1 = true :=
  ⟨(stage_reported_failed_only_when [extRaise] [] [] [] []).1 (by decide)
      extRaise (List.mem_cons_self _ _),
   ((stage_reported_failed_only_when [] [trOther] [] [("file_data", dfMush)]
      []).2.2.1 (by decide) (by decide)).1⟩

/-! ### C6: DataCleaner.transform idempotence -/

theorem set_getD_self (l : List α) (i : Nat) (d : α) (h : i < l.length) :
    l.set i (l.getD i d) = l := by
  induction l generalizing i with
  | nil => cases h
  | cons a t ih =>
    cases i with
    | zero => rfl
    | succ n =>
      simp only [List.getD_cons_succ, List.set_cons_succ]
      rw [ih n (by simpa using h)]

theorem colIdx_lt {df : DataFrame} {n : String} {i : Nat}
    (h : df.colIdx n = some i) : i < df.cols.length := by
  unfold DataFrame.colIdx at h
  exact (List.findIdx?_eq_some_iff_findIdx_eq.mp h).1

/-- C6 counterexample: the claim as stated fails on the code.  On
dfTextCase the first transform keeps both rows (they are distinct until
text standardization, which runs after duplicate removal, maps both to
"a"), and the second transform removes one of them. -/
theorem transform_second_application_removes_a_row :
    (dataCleanerTransform defaultCleanerConfig dfTextCase).rows.length = 2 ∧
    (dataCleanerTransform defaultCleanerConfig
      (dataCleanerTransform defaultCleanerConfig dfTextCase)).rows.length = 1 := by
  decide

theorem missingColNames_nil {df : DataFrame}
    (hlen : ∀ r ∈ df.rows, r.length = df.cols.length)
    (hnull : ∀ r ∈ df.rows, ∀ v ∈ r, isNullV v = false) :
    missingColNames df = [] := by
  unfold missingColNames
  rw [List.filter_eq_nil_iff]
  intro n hn
  simp only [Bool.not_eq_true]
  rw [List.any_eq_false]
  intro v hv
  unfold colCells at hv
  cases hidx : df.colIdx n with
  | none => rw [hidx] at hv; cases hv
  | some i =>
    rw [hidx] at hv
    rw [List.mem_map] at hv
    obtain ⟨r, hr, rfl⟩ := hv
    have hlt : i < r.length := by
      rw [hlen r hr]
      exact colIdx_lt hidx
    have hn := hnull r hr _ (List.getElem_mem hlt)
    simp [List.getD_eq_getElem?_getD, List.getElem?_eq_getElem hlt, hn]

theorem handleOutliers_no_numeric {df : DataFrame} (om : OutlierMethod)
    (t : ℚ) (hcols : ∀ c ∈ df.cols, c.2 = DType.dstr) :
    handleOutliers om t df = df := by
  unfold handleOutliers
  have : df.cols.filter (fun c => c.2 = DType.dnum) = [] := by
    rw [List.filter_eq_nil_iff]
    intro c hc
    rw [hcols c hc]
    simp
  rw [this]
  rfl

theorem stdCol_fixed {df : DataFrame} (n : String)
    (hlen : ∀ r ∈ df.rows, r.length = df.cols.length)
    (hstd : ∀ r ∈ df.rows, ∀ v ∈ r, stdValue v = v) :
    stdCol df n = df := by
  unfold stdCol
  cases hidx : df.colIdx n with
  | none => rfl
  | some i =>
    dsimp only
    have hrows : df.rows.map
        (fun r => r.set i (stdValue (r.getD i Value.vnull))) = df.rows := by
      have hpt : ∀ r ∈ df.rows,
          r.set i (stdValue (r.getD i Value.vnull)) = r := by
        intro r hr
        have hlt : i < r.length := by
          rw [hlen r hr]
          exact colIdx_lt hidx
        have hget : r.getD i Value.vnull = r[i] := by
          rw [List.getD_eq_getElem?_getD, List.getElem?_eq_getElem hlt]
          rfl
        rw [hget, hstd r hr _ (List.getElem_mem hlt), ← hget]
        exact set_getD_self r i Value.vnull hlt
      calc df.rows.map (fun r => r.set i (stdValue (r.getD i Value.vnull)))
          = df.rows.map id := List.map_congr_left hpt
        _ = df.rows := List.map_id df.rows
    rw [hrows]

theorem stdTextDF_fixed {df : DataFrame}
    (hlen : ∀ r ∈ df.rows, r.length = df.cols.length)
    (hstd : ∀ r ∈ df.rows, ∀ v ∈ r, stdValue v = v) :
    stdTextDF df = df := by
  unfold stdTextDF
  generalize ((df.cols.filter (fun c => c.2 = DType.dstr)).map Prod.fst) = names
  induction names with
  | nil => rfl
  | cons n t ih =>
    simp only [List.foldl_cons]
    rw [stdCol_fixed n hlen hstd]
    exact ih

theorem handleMissingValues_of_no_missing {df : DataFrame}
    (hm : HandleMissing) (t : ℚ) (h : missingColNames df = []) :
    handleMissingValues hm t df = df := by
  unfold handleMissingValues
  rw [h]
  rfl

theorem cleaner_transform_eq_dedup {df : DataFrame}
    (hcols : ∀ c ∈ df.cols, c.2 = DType.dstr)
    (hlen : ∀ r ∈ df.rows, r.length = df.cols.length)
    (hstd : ∀ r ∈ df.rows, ∀ v ∈ r, stdValue v = v) :
    dataCleanerTransform defaultCleanerConfig df =
      ⟨df.cols, dedupFirst df.rows⟩ := by
  have hd1len : ∀ r ∈ (⟨df.cols, dedupFirst df.rows⟩ : DataFrame).rows,
      r.length = (⟨df.cols, dedupFirst df.rows⟩ : DataFrame).cols.length :=
    fun r hr => hlen r (mem_dedupFirst.mp hr)
  have hd1std : ∀ r ∈ (⟨df.cols, dedupFirst df.rows⟩ : DataFrame).rows,
      ∀ v ∈ r, stdValue v = v :=
    fun r hr => hstd r (mem_dedupFirst.mp hr)
  have hd1null : ∀ r ∈ (⟨df.cols, dedupFirst df.rows⟩ : DataFrame).rows,
      ∀ v ∈ r, isNullV v = false := by
    intro r hr v hv
    have h := hd1std r hr v hv
    cases v with
    | vnull => simp [stdValue, stdString] at h
    | vstr s => rfl
    | vnum q => rfl
    | vbool b => rfl
  have hstart : dataCleanerTransform defaultCleanerConfig df =
      stdTextDF (handleOutliers .iqr 3 (handleMissingValues .hdrop (1/2)
        ⟨df.cols, dedupFirst df.rows⟩)) := rfl
  have hd1cols : ∀ c ∈ (⟨df.cols, dedupFirst df.rows⟩ : DataFrame).cols,
      c.2 = DType.dstr := hcols
  rw [hstart,
    handleMissingValues_of_no_missing .hdrop (1/2)
      (missingColNames_nil hd1len hd1null),
    handleOutliers_no_numeric .iqr 3 hd1cols,
    stdTextDF_fixed hd1len hd1std]

/-- C6 as amended.  For tables with only object-dtype columns, of full
schema width, whose text is already standardized (every cell a fixed
point of the standardization step), DataCleaner.transform is idempotent:
the second application returns exactly the rows of the first, which are
the deduplicated input rows.  (On the code as written the claim fails for
arbitrary input: outlier removal re-trims after quantiles shift, and text
standardization can create duplicates that only the next duplicate-removal
pass deletes, as the counterexample shows.) -/
theorem transform_idempotent_on_standardized_text (df : DataFrame)
    (hcols : ∀ c ∈ df.cols, c.2 = DType.dstr)
    (hlen : ∀ r ∈ df.rows, r.length = df.cols.length)
    (hstd : ∀ r ∈ df.rows, ∀ v ∈ r, stdValue v = v) :
    (dataCleanerTransform defaultCleanerConfig
        (dataCleanerTransform defaultCleanerConfig df)).rows =
      (dataCleanerTransform defaultCleanerConfig df).rows := by
  have h1 := cleaner_transform_eq_dedup hcols hlen hstd
  have hcols2 : ∀ c ∈ (⟨df.cols, dedupFirst df.rows⟩ : DataFrame).cols,
      c.2 = DType.dstr := hcols
  have hlen2 : ∀ r ∈ (⟨df.cols, dedupFirst df.rows⟩ : DataFrame).rows,
      r.length = (⟨df.cols, dedupFirst df.rows⟩ : DataFrame).cols.length :=
    fun r hr => hlen r (mem_dedupFirst.mp hr)
  have hstd2 : ∀ r ∈ (⟨df.cols, dedupFirst df.rows⟩ : DataFrame).rows,
      ∀ v ∈ r, stdValue v = v :=
    fun r hr => hstd r (mem_dedupFirst.mp hr)
  rw [h1, cleaner_transform_eq_dedup hcols2 hlen2 hstd2]
  dsimp only
  rw [dedupFirst_idem]

/-- C6 witness: a standardized two-row text table, on which transform is
idempotent. -/
theorem transform_idempotent_on_standardized_text_witness :
    (dataCleanerTransform defaultCleanerConfig
        (dataCleanerTransform defaultCleanerConfig dfStdText)).rows =
      (dataCleanerTransform defaultCleanerConfig dfStdText).rows :=
  transform_idempotent_on_standardized_text dfStdText (by decide) (by decide)
    (by decide)

/-! ### C7: one-hot indicators -/

theorem dummyCats_nodup (df : DataFrame) (c : String) :
    (dummyCats df c).Nodup := by
  unfold dummyCats
  exact ((List.perm_insertionSort _ _).symm).nodup (nodup_dedupFirst _)

theorem mem_dummyCats_of_cell {df : DataFrame} {c : String}
    {row : List Value} {s : String} (hrow : row ∈ df.rows)
    (hcell : df.rowCell c row = some (Value.vstr s)) :
    s ∈ dummyCats df c := by
  unfold DataFrame.rowCell at hcell
  cases hidx : df.colIdx c with
  | none => rw [hidx] at hcell; cases hcell
  | some i =>
    rw [hidx] at hcell
    dsimp only at hcell
    unfold dummyCats
    rw [(List.perm_insertionSort _ _).mem_iff, mem_dedupFirst,
      List.mem_filterMap]
    refine ⟨Value.vstr s, ?_, rfl⟩
    unfold colCells
    rw [hidx, List.mem_map]
    refine ⟨row, hrow, ?_⟩
    rw [List.getD_eq_getElem?_getD, ← List.get?_eq_getElem?, hcell]
    rfl

theorem count_dummyBlock_of_str {df : DataFrame} {c : String}
    {row : List Value} {s : String} (hrow : row ∈ df.rows)
    (hcell : df.rowCell c row = some (Value.vstr s)) :
    (dummyBlock df c row).count (Value.vbool true) = 1 := by
  unfold dummyBlock
  rw [List.count_eq_countP, List.countP_map]
  have hcongr : ∀ cat ∈ dummyCats df c,
      (((fun x => x == Value.vbool true) ∘ fun cat =>
        Value.vbool (decide (df.rowCell c row = some (Value.vstr cat)))) cat
          = true) ↔ ((fun cat => cat == s) cat = true) := by
    intro cat hcat
    simp only [Function.comp, hcell, beq_iff_eq, Value.vbool.injEq,
      decide_eq_true_eq, Option.some.injEq, Value.vstr.injEq]
    exact eq_comm
  rw [List.countP_congr hcongr, ← List.count_eq_countP]
  exact List.count_eq_one_of_mem (dummyCats_nodup df c)
    (mem_dummyCats_of_cell hrow hcell)

theorem count_dummyBlock_of_null {df : DataFrame} {c : String}
    {row : List Value} (hcell : df.rowCell c row = some Value.vnull) :
    (dummyBlock df c row).count (Value.vbool true) = 0 := by
  unfold dummyBlock
  rw [List.count_eq_countP, List.countP_map, List.countP_eq_zero]
  intro cat hcat
  simp [Function.comp, hcell]

/-- C7 as amended.  After one-hot encoding, for every row of the frame and
every categorical feature column, exactly one of that feature's indicator
cells is True whenever the row's value in the feature is present; a
missing value leaves all of the feature's indicators False (get_dummies
derives no category from NaN).  The original claim holds verbatim only in
the absence of missing values. -/
theorem onehot_exactly_one_indicator_per_present_value (df : DataFrame)
    (c : String) (row : List Value) (hc : c ∈ catColNames df)
    (hrow : row ∈ df.rows) :
    (∀ s, df.rowCell c row = some (Value.vstr s) →
      (dummyBlock df c row).count (Value.vbool true) = 1) ∧
    (df.rowCell c row = some Value.vnull →
      (dummyBlock df c row).count (Value.vbool true) = 0) :=
  ⟨fun _ hcell => count_dummyBlock_of_str hrow hcell,
   fun hcell => count_dummyBlock_of_null hcell⟩

/-- C7 witness: the first row of the mushroom batch has exactly one
odor indicator set. -/
theorem onehot_exactly_one_indicator_per_present_value_witness :
    (dummyBlock dfMush "odor" [Value.vstr "e", Value.vstr "n"]).count
      (Value.vbool true) = 1 :=
  (onehot_exactly_one_indicator_per_present_value dfMush "odor"
    [Value.vstr "e", Value.vstr "n"] (by decide) (by decide)).1 "n" (by decide)

/-- C7 counterexample: the claim as stated fails on a row with a missing
categorical value — its indicator block is all False, not exactly one
True. -/
theorem onehot_zero_indicators_on_missing_value :
    (encodeCategorical .onehot dfOdorNull).rows =
      [[Value.vbool true], [Value.vbool false]] ∧
    (dummyBlock dfOdorNull "odor" [Value.vnull]).count (Value.vbool true) = 0 ∧
    (dummyCats dfOdorNull "odor").length = 1 ∧
    [Value.vnull] ∈ dfOdorNull.rows := by
  decide

/-! ### C8: extractor validation -/

/-- C8 as amended.  FileExtractor.validate is False exactly on an empty
table, and UCIMushroomExtractor.validate is True exactly on a non-empty
table that has all required columns and whose class column is object
dtype.  Neither right-hand side inspects missing values: a missing-value
ratio above 50% only warns and never makes validate return False.  (The
claim as stated omits the UCI class-dtype check, which the counterexample
exhibits.) -/
theorem validate_characterization (df : DataFrame) :
    (fileValidate df = !df.isEmptyB) ∧
    (uciValidate df =
      (!df.isEmptyB &&
       uciRequiredColumns.all (fun c => df.colNames.contains c) &&
       decide (df.dtypeOf "class" = some DType.dstr))) := by
  constructor
  · unfold fileValidate
    cases h : df.isEmptyB <;> simp [h]
  · unfold uciValidate
    cases h : df.isEmptyB
    · simp only [h, Bool.not_false, Bool.true_and]
      cases hreq : uciRequiredColumns.all (fun c => df.colNames.contains c)
      · simp [hreq]
      · simp only [hreq, Bool.true_and, Bool.not_true, if_false]
        cases hd : df.dtypeOf "class" with
        | none => simp [hd]
        | some d => cases d <;> simp [hd]
    · simp [h]

/-- C8 counterexample: a non-empty table carrying every required column
is still rejected by UCIMushroomExtractor.validate when its class column
is numeric rather than object dtype. -/
theorem uci_validate_rejects_numeric_class :
    uciValidate dfClassNum = false ∧
    dfClassNum.isEmptyB = false ∧
    uciRequiredColumns.all (fun c => dfClassNum.colNames.contains c) = true := by
  decide

/-! ### C9: no in-place mutation across stage boundaries -/

theorem length_writeR (σ : Store) (r : Ref) (df : DataFrame) :
    (writeR σ r df).length = σ.length :=
  List.length_set σ r df

theorem get?_writeR_ne (σ : Store) (r i : Ref) (df : DataFrame)
    (h : i ≠ r) : (writeR σ r df)[i]? = σ[i]? :=
  List.getElem?_set_ne (fun hh => h hh.symm)

theorem readR_writeR_self (σ : Store) (r : Ref) (df : DataFrame)
    (h : r < σ.length) : readR (writeR σ r df) r = df := by
  unfold readR writeR
  rw [List.getD_eq_getElem?_getD, List.getElem?_set_self h]
  rfl

theorem get?_allocR (σ : Store) (df : DataFrame) (i : Ref)
    (h : i < σ.length) : (allocR σ df).1[i]? = σ[i]? := by
  unfold allocR
  dsimp only
  rw [List.getElem?_append]
  rw [if_pos h]

theorem readR_allocR (σ : Store) (df : DataFrame) :
    readR (allocR σ df).1 (allocR σ df).2 = df := by
  unfold readR allocR
  dsimp only
  rw [List.getD_eq_getElem?_getD, List.getElem?_append_right (Nat.le_refl _)]
  simp

theorem readR_mono (σ : Store) (σ2 : Store) (i : Ref)
    (h : σ2[i]? = σ[i]?) : readR σ2 i = readR σ i := by
  unfold readR
  rw [List.getD_eq_getElem?_getD, List.getD_eq_getElem?_getD, h]

theorem writeFold_spec (f : DataFrame → String → DataFrame)
    (ns : List String) (c : Ref) (σ : Store) (hc : c < σ.length) :
    ((ns.foldl (fun s nm => writeR s c (f (readR s c) nm)) σ).length =
      σ.length) ∧
    (∀ i, i ≠ c →
      (ns.foldl (fun s nm => writeR s c (f (readR s c) nm)) σ)[i]? = σ[i]?) ∧
    readR (ns.foldl (fun s nm => writeR s c (f (readR s c) nm)) σ) c =
      ns.foldl f (readR σ c) := by
  induction ns generalizing σ with
  | nil => exact ⟨rfl, fun _ _ => rfl, rfl⟩
  | cons n t ih =>
    simp only [List.foldl_cons]
    have hc1 : c < (writeR σ c (f (readR σ c) n)).length := by
      rw [length_writeR]; exact hc
    obtain ⟨hl, hp, hr⟩ := ih (writeR σ c (f (readR σ c) n)) hc1
    refine ⟨?_, ?_, ?_⟩
    · rw [hl, length_writeR]
    · intro i hi
      rw [hp i hi, get?_writeR_ne σ c i _ hi]
    · rw [hr, readR_writeR_self σ c _ hc]

theorem allocFold_spec (f : DataFrame → String → DataFrame)
    (ns : List String) (c : Ref) (σ : Store) (hc : c < σ.length) :
    σ.length ≤
      (ns.foldl (fun (q : Store × Ref) nm =>
        allocR q.1 (f (readR q.1 q.2) nm)) (σ, c)).1.length ∧
    (∀ i, i < σ.length →
      (ns.foldl (fun (q : Store × Ref) nm =>
        allocR q.1 (f (readR q.1 q.2) nm)) (σ, c)).1[i]? = σ[i]?) ∧
    (ns.foldl (fun (q : Store × Ref) nm =>
        allocR q.1 (f (readR q.1 q.2) nm)) (σ, c)).2 <
      (ns.foldl (fun (q : Store × Ref) nm =>
        allocR q.1 (f (readR q.1 q.2) nm)) (σ, c)).1.length ∧
    ((ns.foldl (fun (q : Store × Ref) nm =>
        allocR q.1 (f (readR q.1 q.2) nm)) (σ, c)).2 = c ∨
      σ.length ≤ (ns.foldl (fun (q : Store × Ref) nm =>
        allocR q.1 (f (readR q.1 q.2) nm)) (σ, c)).2) ∧
    readR (ns.foldl (fun (q : Store × Ref) nm =>
        allocR q.1 (f (readR q.1 q.2) nm)) (σ, c)).1
      (ns.foldl (fun (q : Store × Ref) nm =>
        allocR q.1 (f (readR q.1 q.2) nm)) (σ, c)).2 =
      ns.foldl f (readR σ c) := by
  induction ns generalizing σ c with
  | nil => exact ⟨Nat.le_refl _, fun _ _ => rfl, hc, Or.inl rfl, rfl⟩
  | cons n t ih =>
    simp only [List.foldl_cons]
    have hstep : readR (allocR σ (f (readR σ c) n)).1
        (allocR σ (f (readR σ c) n)).2 = f (readR σ c) n :=
      readR_allocR σ _
    have hc1 : (allocR σ (f (readR σ c) n)).2 <
        (allocR σ (f (readR σ c) n)).1.length := by
      unfold allocR
      simp
    obtain ⟨hl, hp, hlt, hle, hr⟩ :=
      ih (allocR σ (f (readR σ c) n)).2 (allocR σ (f (readR σ c) n)).1 hc1
    have hlen1 : σ.length ≤ (allocR σ (f (readR σ c) n)).1.length := by
      unfold allocR
      simp
    refine ⟨Nat.le_trans hlen1 hl, ?_, hlt, Or.inr ?_, ?_⟩
    · intro i hi
      rw [hp i (Nat.lt_of_lt_of_le hi hlen1), get?_allocR σ _ i hi]
    · rcases hle with hle | hle
      · rw [hle]
        exact Nat.le_refl _
      · exact Nat.le_trans hlen1 hle
    · rw [hr, hstep]

theorem cleanerMissingProg_spec (hm : HandleMissing) (th : ℚ) :
    PhaseSpec (cleanerMissingProg hm th) (handleMissingValues hm th) := by
  intro c σ hc
  unfold cleanerMissingProg handleMissingValues
  dsimp only
  split
  · exact ⟨Nat.le_refl _, fun _ _ _ => rfl, hc, Or.inl rfl, rfl⟩
  · cases hm with
    | hdrop =>
      dsimp only
      refine ⟨?_, ?_, ?_, Or.inr ?_, ?_⟩
      · unfold allocR
        simp
      · intro i hi hic
        unfold allocR
        dsimp only
        rw [List.getElem?_append, if_pos (by simp; omega),
          List.getElem?_append, if_pos hi]
      · unfold allocR
        simp
      · simp only [allocR, List.length_append, List.length_cons,
          List.length_nil, Nat.zero_add]
        exact Nat.le_add_right _ _
      · rw [readR_allocR]
        rw [readR_allocR]
    | hfill =>
      obtain ⟨hl, hp, hr⟩ := writeFold_spec fillCol
        (missingColNames (readR σ c)) c σ hc
      exact ⟨Nat.le_of_eq hl.symm, fun i _ hic => hp i hic,
        hl ▸ hc, Or.inl rfl, hr⟩
    | himpute =>
      exact ⟨Nat.le_refl _, fun _ _ _ => rfl, hc, Or.inl rfl, rfl⟩

theorem cleanerOutlierProg_spec (om : OutlierMethod) (t : ℚ) :
    PhaseSpec (cleanerOutlierProg om t) (handleOutliers om t) := by
  intro c σ hc
  unfold cleanerOutlierProg handleOutliers
  dsimp only
  split
  · exact ⟨Nat.le_refl _, fun _ _ _ => rfl, hc, Or.inl rfl, rfl⟩
  · cases om with
    | iqr =>
      obtain ⟨hl, hp, hlt, hle, hr⟩ := allocFold_spec iqrFilterCol
        ((((readR σ c).cols.filter (fun p => p.2 = DType.dnum)).map
          Prod.fst)) c σ hc
      exact ⟨hl, fun i hi _ => hp i hi, hlt, hle, hr⟩
    | zscore =>
      obtain ⟨hl, hp, hlt, hle, hr⟩ := allocFold_spec (zscoreFilterCol t)
        ((((readR σ c).cols.filter (fun p => p.2 = DType.dnum)).map
          Prod.fst)) c σ hc
      exact ⟨hl, fun i hi _ => hp i hi, hlt, hle, hr⟩
    | isolationForest =>
      exact ⟨Nat.le_refl _, fun _ _ _ => rfl, hc, Or.inl rfl, rfl⟩

theorem phaseSpec_dedup (b : Bool) :
    PhaseSpec
      (fun c σ => if b then
        allocR σ ⟨(readR σ c).cols, dedupFirst (readR σ c).rows⟩ else (σ, c))
      (fun df => if b then ⟨df.cols, dedupFirst df.rows⟩ else df) := by
  intro c σ hc
  cases b with
  | false => exact ⟨Nat.le_refl _, fun _ _ _ => rfl, hc, Or.inl rfl, rfl⟩
  | true =>
    simp only [eq_self_iff_true, if_true]
    refine ⟨?_, ?_, ?_, Or.inr ?_, ?_⟩
    · unfold allocR
      simp
    · intro i hi hic
      exact get?_allocR σ _ i hi
    · unfold allocR
      simp
    · exact Nat.le_refl _
    · rw [readR_allocR]

theorem phaseSpec_std (b : Bool) :
    PhaseSpec
      (fun c σ => if b then (stdTextProgStore c σ, c) else (σ, c))
      (fun df => if b then stdTextDF df else df) := by
  intro c σ hc
  cases b with
  | false => exact ⟨Nat.le_refl _, fun _ _ _ => rfl, hc, Or.inl rfl, rfl⟩
  | true =>
    simp only [eq_self_iff_true, if_true]
    have h := writeFold_spec stdCol
      ((((readR σ c).cols.filter (fun p => p.2 = DType.dstr)).map Prod.fst))
      c σ hc
    exact ⟨Nat.le_of_eq h.1.symm, fun i _ hic => h.2.1 i hic,
      h.1 ▸ hc, Or.inl trivial, h.2.2⟩

theorem phaseSpec_comp {p q : Ref → Store → Store × Ref}
    {g1 g2 : DataFrame → DataFrame}
    (h1 : PhaseSpec p g1) (h2 : PhaseSpec q g2) :
    PhaseSpec (fun c σ => q (p c σ).2 (p c σ).1)
      (fun df => g2 (g1 df)) := by
  intro c σ hc
  obtain ⟨hl1, hp1, hlt1, hor1, hr1⟩ := h1 c σ hc
  obtain ⟨hl2, hp2, hlt2, hor2, hr2⟩ := h2 (p c σ).2 (p c σ).1 hlt1
  refine ⟨Nat.le_trans hl1 hl2, ?_, hlt2, ?_, ?_⟩
  · intro i hi hic
    rw [hp2 i (Nat.lt_of_lt_of_le hi hl1) ?_, hp1 i hi hic]
    rcases hor1 with hor1 | hor1
    · rw [hor1]
      exact hic
    · omega
  · rcases hor2 with hor2 | hor2
    · rw [hor2]
      rcases hor1 with hor1 | hor1
      · exact Or.inl hor1
      · exact Or.inr hor1
    · exact Or.inr (Nat.le_trans hl1 hor2)
  · rw [hr2, hr1]

theorem cleanerProg_spec (cfg : CleanerConfig) (r : Ref) (σ : Store) :
    σ.length ≤ (cleanerProg cfg r σ).1.length ∧
    (∀ i, i < σ.length → (cleanerProg cfg r σ).1[i]? = σ[i]?) ∧
    σ.length ≤ (cleanerProg cfg r σ).2 ∧
    (cleanerProg cfg r σ).2 < (cleanerProg cfg r σ).1.length ∧
    readR (cleanerProg cfg r σ).1 (cleanerProg cfg r σ).2 =
      dataCleanerTransform cfg (readR σ r) := by
  have hphase :=
    phaseSpec_comp
      (phaseSpec_comp
        (phaseSpec_comp (phaseSpec_dedup cfg.removeDuplicates)
          (cleanerMissingProg_spec cfg.handleMissing cfg.missingThreshold))
        (cleanerOutlierProg_spec cfg.outlierMethod cfg.outlierThreshold))
      (phaseSpec_std cfg.standardizeText)
  have hc0 : (allocR σ (readR σ r)).2 < (allocR σ (readR σ r)).1.length := by
    unfold allocR
    simp
  obtain ⟨hl, hp, hlt, hor, hr⟩ :=
    hphase (allocR σ (readR σ r)).2 (allocR σ (readR σ r)).1 hc0
  have hlen1 : σ.length ≤ (allocR σ (readR σ r)).1.length := by
    unfold allocR
    simp
  have hread0 : readR (allocR σ (readR σ r)).1 (allocR σ (readR σ r)).2 =
      readR σ r := readR_allocR σ _
  rw [hread0] at hr
  refine ⟨Nat.le_trans hlen1 hl, ?_, ?_, hlt, hr⟩
  · intro i hi
    exact (hp i (Nat.lt_of_lt_of_le hi hlen1)
      (Nat.ne_of_lt hi)).trans (get?_allocR σ _ i hi)
  · rcases hor with hor | hor
    · exact Nat.le_of_eq hor.symm
    · exact Nat.le_trans hlen1 hor

theorem storeInv_start (σ : Store) (df : DataFrame) :
    StoreInv σ (allocR σ df) := by
  refine ⟨?_, ?_, Nat.le_refl _, ?_⟩
  · unfold allocR
    simp
  · intro i hi
    exact get?_allocR σ df i hi
  · unfold allocR
    simp

theorem storeInv_alloc {σ : Store} {s : Store × Ref} (h : StoreInv σ s)
    (df : DataFrame) : StoreInv σ (allocR s.1 df) := by
  obtain ⟨h1, h2, h3, h4⟩ := h
  refine ⟨?_, ?_, ?_, ?_⟩
  · refine Nat.le_trans h1 ?_
    unfold allocR
    simp
  · intro i hi
    rw [get?_allocR s.1 df i (Nat.lt_of_lt_of_le hi h1)]
    exact h2 i hi
  · exact h1
  · unfold allocR
    simp

theorem storeInv_writeR {σ : Store} {s : Store × Ref} (h : StoreInv σ s)
    (df : DataFrame) : StoreInv σ (writeR s.1 s.2 df, s.2) := by
  obtain ⟨h1, h2, h3, h4⟩ := h
  refine ⟨?_, ?_, h3, ?_⟩
  · rw [length_writeR]
    exact h1
  · intro i hi
    rw [get?_writeR_ne s.1 s.2 i df
      (Nat.ne_of_lt (Nat.lt_of_lt_of_le hi h3))]
    exact h2 i hi
  · rw [length_writeR]
    exact h4

theorem storeInv_writeFold {σ : Store} {s : Store × Ref} (h : StoreInv σ s)
    (f : DataFrame → String → DataFrame) (ns : List String) :
    StoreInv σ
      (ns.foldl (fun st nm => writeR st s.2 (f (readR st s.2) nm)) s.1,
        s.2) := by
  obtain ⟨h1, h2, h3, h4⟩ := h
  obtain ⟨hl, hp, -⟩ := writeFold_spec f ns s.2 s.1 h4
  refine ⟨?_, ?_, h3, ?_⟩
  · rw [hl]
    exact h1
  · intro i hi
    rw [hp i (Nat.ne_of_lt (Nat.lt_of_lt_of_le hi h3))]
    exact h2 i hi
  · rw [hl]
    exact h4

theorem storeInv_fePhaseEncode (enc : CatEncoding) {σ : Store}
    {s : Store × Ref} (h : StoreInv σ s) :
    StoreInv σ (fePhaseEncode enc s) := by
  unfold fePhaseEncode
  dsimp only
  split
  · exact h
  · cases enc with
    | onehot => exact storeInv_alloc h _
    | label => exact storeInv_writeFold (storeInv_alloc h _) _ _
    | target => exact storeInv_writeFold (storeInv_alloc h _) _ _

theorem storeInv_fePhaseCopyWrite (b : Bool) (f : DataFrame → DataFrame)
    {σ : Store} {s : Store × Ref} (h : StoreInv σ s) :
    StoreInv σ (fePhaseCopyWrite b f s) := by
  unfold fePhaseCopyWrite
  split
  · exact storeInv_writeR (storeInv_alloc h _) _
  · exact h

theorem storeInv_fePhaseSelect (b : Bool) (f : DataFrame → DataFrame)
    {σ : Store} {s : Store × Ref} (h : StoreInv σ s) :
    StoreInv σ (fePhaseSelect b f s) := by
  unfold fePhaseSelect
  split
  · exact storeInv_alloc (storeInv_alloc h _) _
  · exact h

theorem feProg_framePreserving (enc : CatEncoding) (tc : String)
    (b1 b2 b3 : Bool) (f1 f2 f3 : DataFrame → DataFrame) :
    FramePreserving (feProg enc tc b1 b2 b3 f1 f2 f3) := by
  intro r σ
  have hinv : StoreInv σ (feProg enc tc b1 b2 b3 f1 f2 f3 r σ) := by
    unfold feProg
    dsimp only
    split
    · exact storeInv_alloc
        (storeInv_fePhaseSelect _ f2
          (storeInv_fePhaseCopyWrite b2 f1
            (storeInv_fePhaseCopyWrite b1 f3
              (storeInv_fePhaseEncode enc
                (storeInv_alloc (storeInv_start σ _) _))))) _
    · exact storeInv_fePhaseSelect _ f2
        (storeInv_fePhaseCopyWrite b2 f1
          (storeInv_fePhaseCopyWrite b1 f3
            (storeInv_fePhaseEncode enc (storeInv_start σ _))))
  exact ⟨hinv.1, hinv.2.1, hinv.2.2.1⟩

theorem foldTransP (tps : List TransformerP)
    (h : ∀ tp ∈ tps, FramePreserving tp.prog) (σ0 : Store) :
    ∀ s : Store × Ref,
      σ0.length ≤ s.1.length → (∀ i, i < σ0.length → s.1[i]? = σ0[i]?) →
      σ0.length ≤ s.2 →
      σ0.length ≤ (tps.foldl (fun (p : Store × Ref) tp =>
          let q := tp.prog p.2 p.1
          if tp.validate (readR q.1 q.2) then q else (q.1, p.2)) s).1.length ∧
      (∀ i, i < σ0.length → (tps.foldl (fun (p : Store × Ref) tp =>
          let q := tp.prog p.2 p.1
          if tp.validate (readR q.1 q.2) then q else (q.1, p.2)) s).1[i]? =
        σ0[i]?) ∧
      σ0.length ≤ (tps.foldl (fun (p : Store × Ref) tp =>
          let q := tp.prog p.2 p.1
          if tp.validate (readR q.1 q.2) then q else (q.1, p.2)) s).2 := by
  induction tps with
  | nil => exact fun s hl hp hr => ⟨hl, hp, hr⟩
  | cons tp t ih =>
    intro s hl hp hr
    simp only [List.foldl_cons]
    obtain ⟨ql, qp, qr⟩ := h tp (List.mem_cons_self tp t) s.2 s.1
    have ht : ∀ tp2 ∈ t, FramePreserving tp2.prog :=
      fun tp2 htp2 => h tp2 (List.mem_cons_of_mem tp htp2)
    have hstep :
        σ0.length ≤ (if tp.validate (readR (tp.prog s.2 s.1).1
            (tp.prog s.2 s.1).2) then tp.prog s.2 s.1
          else ((tp.prog s.2 s.1).1, s.2)).1.length ∧
        (∀ i, i < σ0.length → (if tp.validate (readR (tp.prog s.2 s.1).1
            (tp.prog s.2 s.1).2) then tp.prog s.2 s.1
          else ((tp.prog s.2 s.1).1, s.2)).1[i]? = σ0[i]?) ∧
        σ0.length ≤ (if tp.validate (readR (tp.prog s.2 s.1).1
            (tp.prog s.2 s.1).2) then tp.prog s.2 s.1
          else ((tp.prog s.2 s.1).1, s.2)).2 := by
      split
      · exact ⟨Nat.le_trans hl ql,
          fun i hi => (qp i (Nat.lt_of_lt_of_le hi hl)).trans (hp i hi),
          Nat.le_trans hl qr⟩
      · exact ⟨Nat.le_trans hl ql,
          fun i hi => (qp i (Nat.lt_of_lt_of_le hi hl)).trans (hp i hi),
          hr⟩
    exact ih ht _ hstep.1 hstep.2.1 hstep.2.2

/-- C9.  No record batch is mutated in place across stage boundaries: in
the heap model, DataCleaner.transform (whose result moreover equals the
pure dataCleanerTransform of its input, by cleanerProg_spec),
FeatureEngineer.transform (for every categorical encoding and every
instantiation of its sklearn numeric work), and
TransformationPipeline.run_transformations over any frame-preserving
transformers, all leave every pre-existing frame — the caller's input
included — unchanged, and return a freshly allocated frame. -/
theorem transforms_never_mutate_caller_frames :
    (∀ cfg : CleanerConfig, FramePreserving (cleanerProg cfg)) ∧
    (∀ (enc : CatEncoding) (tc : String) (b1 b2 b3 : Bool)
      (f1 f2 f3 : DataFrame → DataFrame),
      FramePreserving (feProg enc tc b1 b2 b3 f1 f2 f3)) ∧
    (∀ tps : List TransformerP, (∀ tp ∈ tps, FramePreserving tp.prog) →
      FramePreserving (runTransProgStore tps)) := by
  refine ⟨?_, feProg_framePreserving, ?_⟩
  · intro cfg r σ
    obtain ⟨h1, h2, h3, -, -⟩ := cleanerProg_spec cfg r σ
    exact ⟨h1, h2, h3⟩
  · intro tps h r σ
    have hstart1 : σ.length ≤ (allocR σ (readR σ r)).1.length := by
      unfold allocR
      simp
    have hstart2 : ∀ i, i < σ.length →
        (allocR σ (readR σ r)).1[i]? = σ[i]? :=
      fun i hi => get?_allocR σ _ i hi
    exact foldTransP tps h σ (allocR σ (readR σ r)) hstart1 hstart2
      (Nat.le_refl _)

/-- C9 witness: running the transformation pipeline with the DataCleaner
store program on a one-frame store leaves the caller's frame intact. -/
theorem transforms_never_mutate_caller_frames_witness :
    ((runTransProgStore
      [⟨cleanerProg defaultCleanerConfig, dataCleanerValidate⟩]
      0 [dfTextCase]).1)[0]? = some dfTextCase := by
  have h := (transforms_never_mutate_caller_frames).2.2
    [⟨cleanerProg defaultCleanerConfig, dataCleanerValidate⟩]
    (fun tp htp => by
      rw [List.mem_singleton] at htp
      subst htp
      exact (transforms_never_mutate_caller_frames).1 defaultCleanerConfig)
    0 [dfTextCase]
  rw [h.2.1 0 (by decide)]
  rfl

end MushroomETL
